import Mathlib

/-! Eigen: MINPACK adapters and the sparse test-matrix initialiser

A shallow embedding of

* `unsupported/Eigen/src/NonLinear/MathFunctions.h`: the ten `ei_*` adapters that size
  the work buffers and dispatch to the MINPACK routines;
* `test/sparse.h`: `initSparse`, the random dense/sparse test-matrix generator.

The MINPACK routines themselves (`cminpack.h`) are external, so an adapter is embedded as
the function from its arguments to the argument record it hands to the solver.  `int` is a
32-bit two's complement integer (arithmetic on `Int`, wrapped by `wrap32`), `double` is
modelled by `ℚ`, and `Scalar` is a type parameter.  The values of a real `Scalar` are
ordered like the numbers they denote, and the products and sums that `initSparse` computes
in `Scalar` are the operations of `ScalarArith`, which may round.
-/

namespace Eigen

/-! ## Machine integers -/

/-- Two's complement reduction of an integer to the range of a 32-bit `int`. -/
def wrap32 (z : Int) : Int := (z + 2147483648) % 4294967296 - 2147483648

/-- The sum `a + b` of two `int`s. -/
def intAdd (a b : Int) : Int := wrap32 (a + b)

/-- The difference `a - b` of two `int`s. -/
def intSub (a b : Int) : Int := wrap32 (a - b)

/-- The product `a * b` of two `int`s. -/
def intMul (a b : Int) : Int := wrap32 (a * b)

/-- The quotient `a / b` of two `int`s, which truncates towards zero. -/
def intDiv (a b : Int) : Int := wrap32 (Int.tdiv a b)

/-- The type `double`, modelled by the rationals. -/
abbrev Double : Type := ℚ

/-! ## Dense containers -/

/-- Modelled from the spec: the column vector type `Eigen::Matrix<Scalar, Dynamic, 1>`,
whose declaration is not part of the sources ("resizable dense containers of scalars with
element access, resize").  A vector is the list of its coefficients, `data()` is that
storage, and the number of coefficients is an `int`. -/
structure VectorX (α : Type) where
  coeffs : List α
  size_lt : coeffs.length < 2147483648

/-- The number of coefficients, `v.size()`. -/
def VectorX.size {α : Type} (v : VectorX α) : Int := (v.coeffs.length : Int)

/-- The constructor `VectorX v(n)`: fresh storage for `n` coefficients.  A negative size
cannot be allocated. -/
def VectorX.ofSize {α : Type} [Inhabited α] (n : Int) : Option (VectorX α) :=
  if h : 0 ≤ n ∧ n < 2147483648 then
    some ⟨List.replicate n.toNat default, by rw [List.length_replicate]; omega⟩
  else none

/-- The call `v.resize(n)`: nothing happens when the size is already `n`, otherwise the
storage is replaced by fresh storage for `n` coefficients. -/
def VectorX.resize {α : Type} [Inhabited α] (v : VectorX α) (n : Int) : Option (VectorX α) :=
  if v.size = n then some v else VectorX.ofSize n

/-- Modelled from the spec: the dense matrix type `Eigen::Matrix<Scalar, Dynamic, Dynamic>`,
whose declaration is not part of the sources ("resizable dense containers of scalars with
element access, resize").  A matrix is its shape, two `int`s, and its coefficient
function. -/
structure MatrixX (α : Type) where
  rows : Nat
  cols : Nat
  coeff : Nat → Nat → α
  rows_lt : rows < 2147483648
  cols_lt : cols < 2147483648

/-- The constructor `MatrixX m(r, c)`: fresh storage for an `r`-by-`c` matrix.  A negative
size cannot be allocated. -/
def MatrixX.ofSize {α : Type} [Inhabited α] (r c : Int) : Option (MatrixX α) :=
  if h : (0 ≤ r ∧ r < 2147483648) ∧ (0 ≤ c ∧ c < 2147483648) then
    some ⟨r.toNat, c.toNat, fun _ _ => default, by omega, by omega⟩
  else none

/-- The call `m.resize(r, c)`: nothing happens when the shape is already `r`-by-`c`,
otherwise the storage is replaced by fresh storage of the new shape. -/
def MatrixX.resize {α : Type} [Inhabited α] (m : MatrixX α) (r c : Int) :
    Option (MatrixX α) :=
  if (m.rows : Int) = r ∧ (m.cols : Int) = c then some m else MatrixX.ofSize r c

/-- The assignment `m(i, j) = v`. -/
def MatrixX.set {α : Type} (m : MatrixX α) (i j : Nat) (v : α) : MatrixX α :=
  { m with coeff := fun a b => if a = i ∧ b = j then v else m.coeff a b }

/-! ## The MINPACK adapters

Each record lists the arguments of one MINPACK routine in the order of the call; the
callback `Functor::f`, the null user pointer and the addresses of the evaluation counters
carry no data of the adapter and are left out. -/

/-- Arguments of `hybrd1`. -/
structure Hybrd1Call (α : Type) where
  n : Int
  x : VectorX α
  fvec : VectorX α
  tol : α
  wa : VectorX α
  lwa : Int

/-- Arguments of `hybrd`. -/
structure HybrdCall (α : Type) where
  n : Int
  x : VectorX α
  fvec : VectorX α
  xtol : α
  maxfev : Int
  ml : Int
  mu : Int
  epsfcn : α
  diag : VectorX α
  mode : Int
  factor : α
  nprint : Int
  fjac : MatrixX α
  ldfjac : Int
  R : VectorX α
  lr : Int
  qtf : VectorX α
  wa1 : VectorX α
  wa2 : VectorX α
  wa3 : VectorX α
  wa4 : VectorX α

/-- Arguments of `hybrj1`. -/
structure Hybrj1Call (α : Type) where
  n : Int
  x : VectorX α
  fvec : VectorX α
  fjac : MatrixX α
  ldfjac : Int
  tol : α
  wa : VectorX α
  lwa : Int

/-- Arguments of `hybrj`. -/
structure HybrjCall (α : Type) where
  n : Int
  x : VectorX α
  fvec : VectorX α
  fjac : MatrixX α
  ldfjac : Int
  xtol : α
  maxfev : Int
  diag : VectorX α
  mode : Int
  factor : α
  nprint : Int
  R : VectorX α
  lr : Int
  qtf : VectorX α
  wa1 : VectorX α
  wa2 : VectorX α
  wa3 : VectorX α
  wa4 : VectorX α

/-- Arguments of `lmstr1` and of `lmder1`. -/
structure Lmder1Call (α : Type) where
  m : Int
  n : Int
  x : VectorX α
  fvec : VectorX α
  fjac : MatrixX α
  ldfjac : Int
  tol : α
  ipvt : VectorX Int
  wa : VectorX α
  lwa : Int

/-- Arguments of `lmstr` and of `lmder`. -/
structure LmderCall (α : Type) where
  m : Int
  n : Int
  x : VectorX α
  fvec : VectorX α
  fjac : MatrixX α
  ldfjac : Int
  ftol : α
  xtol : α
  gtol : α
  maxfev : Int
  diag : VectorX α
  mode : Int
  factor : Double
  nprint : Int
  ipvt : VectorX Int
  qtf : VectorX α
  wa1 : VectorX α
  wa2 : VectorX α
  wa3 : VectorX α
  wa4 : VectorX α

/-- Arguments of `lmdif`. -/
structure LmdifCall (α : Type) where
  m : Int
  n : Int
  x : VectorX α
  fvec : VectorX α
  ftol : α
  xtol : α
  gtol : α
  maxfev : Int
  epsfcn : α
  diag : VectorX α
  mode : Int
  factor : Double
  nprint : Int
  fjac : MatrixX α
  ldfjac : Int
  ipvt : VectorX Int
  qtf : VectorX α
  wa1 : VectorX α
  wa2 : VectorX α
  wa3 : VectorX α
  wa4 : VectorX α

/-- Arguments of `lmdif1`. -/
structure Lmdif1Call (α : Type) where
  m : Int
  n : Int
  x : VectorX α
  fvec : VectorX α
  tol : α
  iwa : VectorX Int
  wa : VectorX α
  lwa : Int

section Adapters

variable {α : Type} [Inhabited α]

/-- The adapter `ei_hybrd1`. -/
def ei_hybrd1 (x fvec : VectorX α) (tol : α) : Option (Hybrd1Call α) := do
  let lwa := intDiv (intMul x.size (intAdd (intMul 3 x.size) 13)) 2
  let wa ← (VectorX.ofSize lwa : Option (VectorX α))
  let fvec ← fvec.resize x.size
  pure { n := x.size, x := x, fvec := fvec, tol := tol, wa := wa, lwa := lwa }

/-- The adapter `ei_hybrd`.  The defaults of the source are `mode = 1`,
`nb_of_subdiagonals = -1`, `nb_of_superdiagonals = -1`, `maxfev = 2000`. -/
def ei_hybrd (x fvec : VectorX α) (fjac : MatrixX α) (R qtf diag : VectorX α)
    (mode nb_of_subdiagonals nb_of_superdiagonals maxfev : Int)
    (factor xtol epsfcn : α) (nprint : Int) : Option (HybrdCall α) := do
  let n := x.size
  let lr := intDiv (intMul n (intAdd n 1)) 2
  let wa1 ← (VectorX.ofSize n : Option (VectorX α))
  let wa2 ← (VectorX.ofSize n : Option (VectorX α))
  let wa3 ← (VectorX.ofSize n : Option (VectorX α))
  let wa4 ← (VectorX.ofSize n : Option (VectorX α))
  let nb_of_subdiagonals :=
    if nb_of_subdiagonals < 0 then intSub n 1 else nb_of_subdiagonals
  let nb_of_superdiagonals :=
    if nb_of_superdiagonals < 0 then intSub n 1 else nb_of_superdiagonals
  let fvec ← fvec.resize n
  let qtf ← qtf.resize n
  let R ← R.resize lr
  let ldfjac := n
  let fjac ← fjac.resize ldfjac n
  pure { n := n, x := x, fvec := fvec, xtol := xtol, maxfev := maxfev,
         ml := nb_of_subdiagonals, mu := nb_of_superdiagonals, epsfcn := epsfcn,
         diag := diag, mode := mode, factor := factor, nprint := nprint,
         fjac := fjac, ldfjac := ldfjac, R := R, lr := lr, qtf := qtf,
         wa1 := wa1, wa2 := wa2, wa3 := wa3, wa4 := wa4 }

/-- The default value of `nb_of_subdiagonals` and of `nb_of_superdiagonals`. -/
def ei_hybrd_default_bandwidth : Int := -1

/-- The adapter `ei_hybrj1`. -/
def ei_hybrj1 (x fvec : VectorX α) (fjac : MatrixX α) (tol : α) :
    Option (Hybrj1Call α) := do
  let n := x.size
  let lwa := intDiv (intMul n (intAdd (intMul 3 n) 13)) 2
  let wa ← (VectorX.ofSize lwa : Option (VectorX α))
  let ldfjac := n
  let fvec ← fvec.resize n
  let fjac ← fjac.resize ldfjac n
  pure { n := n, x := x, fvec := fvec, fjac := fjac, ldfjac := ldfjac, tol := tol,
         wa := wa, lwa := lwa }

/-- The adapter `ei_hybrj`. -/
def ei_hybrj (x fvec : VectorX α) (fjac : MatrixX α) (R qtf diag : VectorX α)
    (mode maxfev : Int) (factor xtol : α) (nprint : Int) : Option (HybrjCall α) := do
  let n := x.size
  let lr := intDiv (intMul n (intAdd n 1)) 2
  let wa1 ← (VectorX.ofSize n : Option (VectorX α))
  let wa2 ← (VectorX.ofSize n : Option (VectorX α))
  let wa3 ← (VectorX.ofSize n : Option (VectorX α))
  let wa4 ← (VectorX.ofSize n : Option (VectorX α))
  let fvec ← fvec.resize n
  let qtf ← qtf.resize n
  let R ← R.resize lr
  let ldfjac := n
  let fjac ← fjac.resize ldfjac n
  pure { n := n, x := x, fvec := fvec, fjac := fjac, ldfjac := ldfjac, xtol := xtol,
         maxfev := maxfev, diag := diag, mode := mode, factor := factor,
         nprint := nprint, R := R, lr := lr, qtf := qtf,
         wa1 := wa1, wa2 := wa2, wa3 := wa3, wa4 := wa4 }

/-- The adapter `ei_lmstr1`. -/
def ei_lmstr1 (x fvec : VectorX α) (ipvt : VectorX Int) (tol : α) :
    Option (Lmder1Call α) := do
  let lwa := intAdd (intMul 5 x.size) fvec.size
  let ldfjac := fvec.size
  let wa ← (VectorX.ofSize lwa : Option (VectorX α))
  let fjac ← (MatrixX.ofSize ldfjac x.size : Option (MatrixX α))
  let ipvt ← ipvt.resize x.size
  pure { m := fvec.size, n := x.size, x := x, fvec := fvec, fjac := fjac,
         ldfjac := ldfjac, tol := tol, ipvt := ipvt, wa := wa, lwa := lwa }

/-- The adapter `ei_lmstr`. -/
def ei_lmstr (x fvec : VectorX α) (fjac : MatrixX α) (ipvt : VectorX Int)
    (diag : VectorX α) (mode : Int) (factor : Double) (maxfev : Int) (ftol xtol gtol : α)
    (nprint : Int) : Option (LmderCall α) := do
  let qtf ← (VectorX.ofSize x.size : Option (VectorX α))
  let wa1 ← (VectorX.ofSize x.size : Option (VectorX α))
  let wa2 ← (VectorX.ofSize x.size : Option (VectorX α))
  let wa3 ← (VectorX.ofSize x.size : Option (VectorX α))
  let wa4 ← (VectorX.ofSize fvec.size : Option (VectorX α))
  let ldfjac := fvec.size
  let ipvt ← ipvt.resize x.size
  let fjac ← fjac.resize ldfjac x.size
  let diag ← diag.resize x.size
  pure { m := fvec.size, n := x.size, x := x, fvec := fvec, fjac := fjac,
         ldfjac := ldfjac, ftol := ftol, xtol := xtol, gtol := gtol, maxfev := maxfev,
         diag := diag, mode := mode, factor := factor, nprint := nprint, ipvt := ipvt,
         qtf := qtf, wa1 := wa1, wa2 := wa2, wa3 := wa3, wa4 := wa4 }

/-- The adapter `ei_lmder1`. -/
def ei_lmder1 (x fvec : VectorX α) (ipvt : VectorX Int) (tol : α) :
    Option (Lmder1Call α) := do
  let lwa := intAdd (intMul 5 x.size) fvec.size
  let ldfjac := fvec.size
  let wa ← (VectorX.ofSize lwa : Option (VectorX α))
  let fjac ← (MatrixX.ofSize ldfjac x.size : Option (MatrixX α))
  let ipvt ← ipvt.resize x.size
  pure { m := fvec.size, n := x.size, x := x, fvec := fvec, fjac := fjac,
         ldfjac := ldfjac, tol := tol, ipvt := ipvt, wa := wa, lwa := lwa }

/-- The adapter `ei_lmder`. -/
def ei_lmder (x fvec : VectorX α) (fjac : MatrixX α) (ipvt : VectorX Int)
    (diag : VectorX α) (mode : Int) (factor : Double) (maxfev : Int) (ftol xtol gtol : α)
    (nprint : Int) : Option (LmderCall α) := do
  let qtf ← (VectorX.ofSize x.size : Option (VectorX α))
  let wa1 ← (VectorX.ofSize x.size : Option (VectorX α))
  let wa2 ← (VectorX.ofSize x.size : Option (VectorX α))
  let wa3 ← (VectorX.ofSize x.size : Option (VectorX α))
  let wa4 ← (VectorX.ofSize fvec.size : Option (VectorX α))
  let ldfjac := fvec.size
  let ipvt ← ipvt.resize x.size
  let fjac ← fjac.resize ldfjac x.size
  let diag ← diag.resize x.size
  pure { m := fvec.size, n := x.size, x := x, fvec := fvec, fjac := fjac,
         ldfjac := ldfjac, ftol := ftol, xtol := xtol, gtol := gtol, maxfev := maxfev,
         diag := diag, mode := mode, factor := factor, nprint := nprint, ipvt := ipvt,
         qtf := qtf, wa1 := wa1, wa2 := wa2, wa3 := wa3, wa4 := wa4 }

/-- The adapter `ei_lmdif`. -/
def ei_lmdif (x fvec : VectorX α) (fjac : MatrixX α) (ipvt : VectorX Int)
    (diag : VectorX α) (mode : Int) (factor : Double) (maxfev : Int)
    (ftol xtol gtol epsfcn : α) (nprint : Int) : Option (LmdifCall α) := do
  let qtf ← (VectorX.ofSize x.size : Option (VectorX α))
  let wa1 ← (VectorX.ofSize x.size : Option (VectorX α))
  let wa2 ← (VectorX.ofSize x.size : Option (VectorX α))
  let wa3 ← (VectorX.ofSize x.size : Option (VectorX α))
  let wa4 ← (VectorX.ofSize fvec.size : Option (VectorX α))
  let ldfjac := fvec.size
  let ipvt ← ipvt.resize x.size
  let fjac ← fjac.resize ldfjac x.size
  let diag ← diag.resize x.size
  pure { m := fvec.size, n := x.size, x := x, fvec := fvec, ftol := ftol, xtol := xtol,
         gtol := gtol, maxfev := maxfev, epsfcn := epsfcn, diag := diag, mode := mode,
         factor := factor, nprint := nprint, fjac := fjac, ldfjac := ldfjac,
         ipvt := ipvt, qtf := qtf, wa1 := wa1, wa2 := wa2, wa3 := wa3, wa4 := wa4 }

/-- The adapter `ei_lmdif1`.  The local matrix `fjac` is allocated and not passed on. -/
def ei_lmdif1 (x fvec : VectorX α) (iwa : VectorX Int) (tol : α) :
    Option (Lmdif1Call α) := do
  let n := x.size
  let ldfjac := fvec.size
  let lwa := intAdd (intAdd (intMul ldfjac n) (intMul 5 n)) ldfjac
  let wa ← (VectorX.ofSize lwa : Option (VectorX α))
  let _fjac ← (MatrixX.ofSize ldfjac n : Option (MatrixX α))
  let iwa ← iwa.resize n
  let wa ← wa.resize lwa
  pure { m := fvec.size, n := n, x := x, fvec := fvec, tol := tol, iwa := iwa,
         wa := wa, lwa := lwa }

end Adapters

/-! ## The sparse test-matrix initialiser -/

/-- The flag `ForceNonZeroDiag`. -/
def ForceNonZeroDiag : Int := 1

/-- The flag `MakeLowerTriangular`. -/
def MakeLowerTriangular : Int := 2

/-- The flag `MakeUpperTriangular`. -/
def MakeUpperTriangular : Int := 4

/-- The C++ test `flags & bit` of an `int` used as a condition. -/
def hasFlag (flags bit : Int) : Prop := Int.land flags bit ≠ 0

instance (flags bit : Int) : Decidable (hasFlag flags bit) := by
  unfold hasFlag; infer_instance

/-- The conversion of a `double` to an `int` argument, which drops the fraction. -/
def doubleToInt (q : Double) : Int := wrap32 (Int.tdiv q.num (q.den : Int))

/-- Modelled from the spec: the class `SparseMatrix<Scalar>` of `Eigen/Sparse`, whose
declaration is not part of the sources.  A sparse matrix is the list of its stored entries
`(row, column, value)` in the order in which they were filled. -/
structure SparseMatrix (α : Type) where
  entries : List (Nat × Nat × α)

/-- The call `startFill(reserveSize)`: the matrix is emptied; the size is only a hint
for the allocation. -/
def SparseMatrix.startFill {α : Type} (_s : SparseMatrix α) (_reserveSize : Int) :
    SparseMatrix α :=
  ⟨[]⟩

/-- The assignment `fill(i, j) = v`: a new stored entry is appended. -/
def SparseMatrix.fill {α : Type} (s : SparseMatrix α) (i j : Nat) (v : α) :
    SparseMatrix α :=
  ⟨s.entries ++ [(i, j, v)]⟩

/-- The call `endFill()`, which closes the filling and stores nothing. -/
def SparseMatrix.endFill {α : Type} (s : SparseMatrix α) : SparseMatrix α := s

/-- Modelled from the spec: the random generator `ei_random` of `test/main.h`, which is not
part of the sources.  The generator is the sequence of the values it returns: `unit k` is
the result of the `k`-th call of `ei_random<double>(0,1)` and `scalar k` the result of the
`k`-th call of `ei_random<Scalar>()`. -/
structure RandomSource (α : Type) where
  unit : Nat → Double
  scalar : Nat → α

/-- How many values of each kind have been drawn so far. -/
structure RandomState where
  unitCalls : Nat
  scalarCalls : Nat
deriving DecidableEq

/-- The call `ei_random<double>(0,1)`. -/
def ei_random_unit {α : Type} (src : RandomSource α) (rnd : RandomState) :
    Double × RandomState :=
  (src.unit rnd.unitCalls, { rnd with unitCalls := rnd.unitCalls + 1 })

/-- The call `ei_random<Scalar>()`. -/
def ei_random_scalar {α : Type} (src : RandomSource α) (rnd : RandomState) :
    α × RandomState :=
  (src.scalar rnd.scalarCalls, { rnd with scalarCalls := rnd.scalarCalls + 1 })

/-- Everything `initSparse` reads and writes: the generator, the two matrices and the two
optional coordinate lists (`none` is the null pointer). -/
structure InitSparseState (α : Type) where
  rnd : RandomState
  refMat : MatrixX α
  sparseMat : SparseMatrix α
  zeroCoords : Option (List (Nat × Nat))
  nonzeroCoords : Option (List (Nat × Nat))

/-- The arithmetic of a real `Scalar` type such as `float` or `double`: `mul` and `add` are
the operators `*` and `+` of `Scalar`, which may round their exact result.  The values of
`Scalar` (no NaN) are compared as numbers, and the two laws are what rounding to a nearest
representable value keeps of exact arithmetic here: a computed square is not negative, and
adding the representable number 5 to a non-negative value gives at least 5. -/
class ScalarArith (α : Type) [LinearOrderedRing α] where
  mul : α → α → α
  add : α → α → α
  zero_le_mul_self : ∀ v : α, 0 ≤ mul v v
  five_le_add_five : ∀ x : α, 0 ≤ x → 5 ≤ add x 5

section InitSparse

variable {α : Type} [LinearOrderedRing α] [ScalarArith α]

/-- Lines 66 to 71 of `sparse.h`: the value drawn for the coefficient `(i, j)`. -/
def drawCoeff (src : RandomSource α) (density : Double) (flags : Int) (i j : Nat)
    (rnd : RandomState) : α × RandomState :=
  let (d, rnd) := ei_random_unit src rnd
  let (v, rnd) := if d < density then ei_random_scalar src rnd else ((0 : α), rnd)
  if hasFlag flags ForceNonZeroDiag ∧ i = j then
    let (r, rnd) := ei_random_scalar src rnd
    let v := ScalarArith.mul r 3
    (ScalarArith.add (ScalarArith.mul v v) 5, rnd)
  else
    (v, rnd)

/-- Lines 72 to 75 of `sparse.h`: the triangular flags. -/
def shapeCoeff (flags : Int) (i j : Nat) (v : α) : α :=
  if hasFlag flags MakeLowerTriangular ∧ j > i then 0
  else if hasFlag flags MakeUpperTriangular ∧ j < i then 0
  else v

/-- Lines 76 to 86 of `sparse.h`: the value is stored in both matrices and its coordinate
is pushed on one of the lists. -/
def storeCoeff (i j : Nat) (v : α) (st : InitSparseState α) : InitSparseState α :=
  let st :=
    if v ≠ 0 then
      { st with sparseMat := st.sparseMat.fill i j v,
                nonzeroCoords := st.nonzeroCoords.map (fun l => l ++ [(i, j)]) }
    else
      { st with zeroCoords := st.zeroCoords.map (fun l => l ++ [(i, j)]) }
  { st with refMat := st.refMat.set i j v }

/-- The body of the inner loop of `initSparse`, for the coefficient `(i, j)`. -/
def initSparseCoeff (src : RandomSource α) (density : Double) (flags : Int)
    (st : InitSparseState α) (c : Nat × Nat) : InitSparseState α :=
  let drawn := drawCoeff src density flags c.1 c.2 st.rnd
  storeCoeff c.1 c.2 (shapeCoeff flags c.1 c.2 drawn.1) { st with rnd := drawn.2 }

/-- The function `initSparse`: `j` runs over the columns and, inside, `i` over the rows. -/
def initSparse (src : RandomSource α) (rnd : RandomState) (density : Double)
    (refMat : MatrixX α) (sparseMat : SparseMatrix α) (flags : Int)
    (zeroCoords nonzeroCoords : Option (List (Nat × Nat))) : InitSparseState α :=
  let sparseMat := sparseMat.startFill
    (doubleToInt (((intMul refMat.rows refMat.cols : Int) : Double) * density))
  let st : InitSparseState α :=
    { rnd := rnd, refMat := refMat, sparseMat := sparseMat,
      zeroCoords := zeroCoords, nonzeroCoords := nonzeroCoords }
  let st := (List.range refMat.cols).foldl
    (fun st j => (List.range refMat.rows).foldl
      (fun st i => initSparseCoeff src density flags st (i, j)) st) st
  { st with sparseMat := st.sparseMat.endFill }

end InitSparse

/-- The coordinates of a matrix with `rows` rows and `cols` columns in the order in which
the loops of `initSparse` visit them: column after column, each from the top. -/
def cells (rows cols : Nat) : List (Nat × Nat) :=
  (List.range cols).flatMap (fun j => (List.range rows).map (fun i => (i, j)))

/-- The order of the visit: `a` lies in an earlier column than `b`, or higher up in the
same column. -/
def colMajorLt (a b : Nat × Nat) : Prop := a.2 < b.2 ∨ (a.2 = b.2 ∧ a.1 < b.1)

/-- The coordinate `(row, column)` of a stored entry. -/
def entryCoord {α : Type} (e : Nat × Nat × α) : Nat × Nat := (e.1, e.2.1)

/-- The value that the loop body of `initSparse` stores at the coordinate `c` when the
generator is in the state `rnd`. -/
def coeffValue {α : Type} [LinearOrderedRing α] [ScalarArith α] (src : RandomSource α) (density : Double)
    (flags : Int) (rnd : RandomState) (c : Nat × Nat) : α :=
  shapeCoeff flags c.1 c.2 (drawCoeff src density flags c.1 c.2 rnd).1

/-! ## Concrete inputs -/

/-- Exact arithmetic on the rationals. -/
instance exactArith : ScalarArith ℚ where
  mul a b := a * b
  add a b := a + b
  zero_le_mul_self v := mul_self_nonneg v
  five_le_add_five _ hx := le_add_of_nonneg_left hx

/-- A rounding arithmetic on the rationals: every product and every sum is rounded down to
a multiple of `1/1024`. -/
def floorArith : ScalarArith ℚ where
  mul a b := (⌊a * b * 1024⌋ : ℚ) / 1024
  add a b := (⌊(a + b) * 1024⌋ : ℚ) / 1024
  zero_le_mul_self v :=
    div_nonneg (Int.cast_nonneg.2 (Int.floor_nonneg.2
      (mul_nonneg (mul_self_nonneg v) (by norm_num)))) (by norm_num)
  five_le_add_five x hx := by
    rw [le_div_iff₀ (by norm_num : (0 : ℚ) < 1024)]
    have h : ((5120 : ℤ) : ℚ) ≤ (⌊(x + 5) * 1024⌋ : ℚ) :=
      Int.cast_le.2 (Int.le_floor.2 (by push_cast; linarith))
    calc (5 : ℚ) * 1024 = ((5120 : ℤ) : ℚ) := by norm_num
      _ ≤ _ := h

/-- A generator whose draws of `ei_random<double>(0,1)` are all `0` and whose scalar draws
are all `1/10`. -/
def srcTenth : RandomSource ℚ := ⟨fun _ => 0, fun _ => 1 / 10⟩

/-- A matrix of three rows and one column. -/
def mat31 : MatrixX ℚ := ⟨3, 1, fun _ _ => 0, by decide, by decide⟩


/-- An `r`-by-`c` matrix of zeros. -/
def zeroMat (r c : Nat) (hr : r < 2147483648) (hc : c < 2147483648) : MatrixX ℚ :=
  ⟨r, c, fun _ _ => 0, hr, hc⟩

/-- A vector of `n` zeros. -/
def zeroVec (n : Nat) (hn : n < 2147483648) : VectorX ℚ :=
  ⟨List.replicate n 0, by rw [List.length_replicate]; exact hn⟩

/-- An integer vector of `n` zeros. -/
def zeroVecI (n : Nat) (hn : n < 2147483648) : VectorX Int :=
  ⟨List.replicate n 0, by rw [List.length_replicate]; exact hn⟩

/-- The empty vector, as a default-constructed `VectorX` is. -/
def emptyVec : VectorX ℚ := zeroVec 0 (by decide)

/-- A vector of two zeros. -/
def vec2 : VectorX ℚ := zeroVec 2 (by decide)

/-- A vector of three zeros. -/
def vec3 : VectorX ℚ := zeroVec 3 (by decide)

/-- The empty integer vector. -/
def emptyVecI : VectorX Int := zeroVecI 0 (by decide)

/-- The empty matrix, as a default-constructed `MatrixX` is. -/
def emptyMat : MatrixX ℚ := zeroMat 0 0 (by decide) (by decide)

/-- A matrix of one row and seven columns. -/
def mat17 : MatrixX ℚ := zeroMat 1 7 (by decide) (by decide)

/-- A matrix of one row and two columns. -/
def mat12 : MatrixX ℚ := zeroMat 1 2 (by decide) (by decide)

/-- A matrix of three rows and three columns. -/
def mat33 : MatrixX ℚ := zeroMat 3 3 (by decide) (by decide)

/-- A generator whose draws of `ei_random<double>(0,1)` are all `0` and whose scalar draws
are `0` at the second call and `1` at every other call. -/
def srcOnes : RandomSource ℚ := ⟨fun _ => 0, fun k => if k = 1 then 0 else 1⟩

/-! ## Machine integers and containers: basic facts -/

theorem wrap32_eq_self {z : Int} (h1 : -2147483648 ≤ z) (h2 : z < 2147483648) :
    wrap32 z = z := by
  unfold wrap32; omega

theorem VectorX.size_nonneg {α : Type} (v : VectorX α) : 0 ≤ v.size := by
  unfold VectorX.size; omega

theorem VectorX.size_lt_two_pow {α : Type} (v : VectorX α) : v.size < 2147483648 := by
  have := v.size_lt
  unfold VectorX.size; omega

theorem VectorX.size_of_ofSize {α : Type} [Inhabited α] {n : Int} {v : VectorX α}
    (h : VectorX.ofSize n = some v) : v.size = n := by
  unfold VectorX.ofSize at h
  split at h
  · rename_i hn
    cases h
    simp only [VectorX.size, List.length_replicate]
    omega
  · cases h

theorem VectorX.ofSize_isSome {α : Type} [Inhabited α] {n : Int} (h0 : 0 ≤ n)
    (h1 : n < 2147483648) : ∃ v : VectorX α, VectorX.ofSize n = some v := by
  unfold VectorX.ofSize
  rw [dif_pos ⟨h0, h1⟩]
  exact ⟨_, rfl⟩

theorem VectorX.size_of_resize {α : Type} [Inhabited α] {n : Int} {v w : VectorX α}
    (h : v.resize n = some w) : w.size = n := by
  unfold VectorX.resize at h
  split at h
  · rename_i hn
    cases h
    exact hn
  · exact VectorX.size_of_ofSize h

theorem VectorX.resize_isSome {α : Type} [Inhabited α] (v : VectorX α) {n : Int}
    (h0 : 0 ≤ n) (h1 : n < 2147483648) : ∃ w : VectorX α, v.resize n = some w := by
  unfold VectorX.resize
  split
  · exact ⟨_, rfl⟩
  · exact VectorX.ofSize_isSome h0 h1

theorem MatrixX.shape_of_ofSize {α : Type} [Inhabited α] {r c : Int} {m : MatrixX α}
    (h : MatrixX.ofSize r c = some m) : (m.rows : Int) = r ∧ (m.cols : Int) = c := by
  unfold MatrixX.ofSize at h
  split at h
  · rename_i hn
    cases h
    simp only
    omega
  · cases h

theorem MatrixX.ofSize_mat_isSome {α : Type} [Inhabited α] {r c : Int} (hr0 : 0 ≤ r)
    (hr1 : r < 2147483648) (hc0 : 0 ≤ c) (hc1 : c < 2147483648) :
    ∃ m : MatrixX α, MatrixX.ofSize r c = some m := by
  unfold MatrixX.ofSize
  rw [dif_pos ⟨⟨hr0, hr1⟩, ⟨hc0, hc1⟩⟩]
  exact ⟨_, rfl⟩

theorem MatrixX.shape_of_resize {α : Type} [Inhabited α] {r c : Int} {m w : MatrixX α}
    (h : m.resize r c = some w) : (w.rows : Int) = r ∧ (w.cols : Int) = c := by
  unfold MatrixX.resize at h
  split at h
  · rename_i hn
    cases h
    exact hn
  · exact MatrixX.shape_of_ofSize h

theorem MatrixX.resize_mat_isSome {α : Type} [Inhabited α] (m : MatrixX α) {r c : Int}
    (hr0 : 0 ≤ r) (hr1 : r < 2147483648) (hc0 : 0 ≤ c) (hc1 : c < 2147483648) :
    ∃ w : MatrixX α, m.resize r c = some w := by
  unfold MatrixX.resize
  split
  · exact ⟨_, rfl⟩
  · exact MatrixX.ofSize_mat_isSome hr0 hr1 hc0 hc1

section AdapterFacts

variable {α : Type} [Inhabited α]

theorem ei_hybrd_some {x fvec : VectorX α} {fjac : MatrixX α} {R qtf diag : VectorX α}
    {mode ml mu maxfev : Int} {factor xtol epsfcn : α} {nprint : Int} {c : HybrdCall α}
    (h : ei_hybrd x fvec fjac R qtf diag mode ml mu maxfev factor xtol epsfcn nprint
      = some c) :
    c.n = x.size ∧ c.ldfjac = x.size ∧ (c.fjac.rows : Int) = x.size ∧
      (c.fjac.cols : Int) = x.size ∧ c.diag = diag ∧
      c.ml = (if ml < 0 then intSub x.size 1 else ml) ∧
      c.mu = (if mu < 0 then intSub x.size 1 else mu) := by
  unfold ei_hybrd at h
  simp only [Option.bind_eq_bind, Option.bind_eq_some, Option.pure_def,
    Option.some.injEq] at h
  obtain ⟨wa1, -, wa2, -, wa3, -, wa4, -, fv, -, q, -, r, -, fj, hfj, rfl⟩ := h
  have := MatrixX.shape_of_resize hfj
  exact ⟨rfl, rfl, this.1, this.2, rfl, rfl, rfl⟩


theorem lr_eq {n : Int} (h0 : 0 ≤ n) (h : n * (n + 1) < 2147483648) :
    intDiv (intMul n (intAdd n 1)) 2 = n * (n + 1) / 2 := by
  have hp : 0 ≤ n * (n + 1) := mul_nonneg h0 (by omega)
  have hn : n ≤ n * (n + 1) := by nlinarith
  have h1 : intAdd n 1 = n + 1 := by
    unfold intAdd
    rcases eq_or_lt_of_le h0 with h | h
    · subst h; decide
    · have : n + 1 ≤ n * (n + 1) := by nlinarith
      exact wrap32_eq_self (by omega) (by omega)
  have h2 : intMul n (n + 1) = n * (n + 1) := wrap32_eq_self (by omega) h
  have h3 : Int.tdiv (n * (n + 1)) 2 = n * (n + 1) / 2 :=
    Int.tdiv_eq_ediv hp (by decide)
  rw [h1, h2]
  unfold intDiv
  rw [h3]
  exact wrap32_eq_self (by omega) (by omega)

theorem lwa_hybr_eq {n : Int} (h0 : 0 ≤ n) (h : n * (3 * n + 13) < 2147483648) :
    intDiv (intMul n (intAdd (intMul 3 n) 13)) 2 = n * (3 * n + 13) / 2 := by
  have hp : 0 ≤ n * (3 * n + 13) := mul_nonneg h0 (by omega)
  have hb : 3 * n + 13 < 2147483648 := by
    rcases eq_or_lt_of_le h0 with h' | h'
    · subst h'; decide
    · have : 3 * n + 13 ≤ n * (3 * n + 13) := by nlinarith
      omega
  have h1 : intMul 3 n = 3 * n := wrap32_eq_self (by omega) (by omega)
  have h2 : intAdd (3 * n) 13 = 3 * n + 13 := wrap32_eq_self (by omega) hb
  have h3 : intMul n (3 * n + 13) = n * (3 * n + 13) := wrap32_eq_self (by omega) h
  have h4 : Int.tdiv (n * (3 * n + 13)) 2 = n * (3 * n + 13) / 2 :=
    Int.tdiv_eq_ediv hp (by decide)
  rw [h1, h2, h3]
  unfold intDiv
  rw [h4]
  exact wrap32_eq_self (by omega) (by omega)

theorem lwa_hybr_even (n : Int) : 2 * (n * (3 * n + 13) / 2) = n * (3 * n + 13) := by
  have h : (n * (3 * n + 13)) % 2 = 0 := by
    rcases Int.emod_two_eq_zero_or_one n with h | h
    · rw [Int.mul_emod, h]; simp
    · have : (3 * n + 13) % 2 = 0 := by omega
      rw [Int.mul_emod, this]; simp
  omega

theorem lwa_lm_eq {n m : Int} (hn : 0 ≤ n) (hm : 0 ≤ m) (h : 5 * n + m < 2147483648) :
    intAdd (intMul 5 n) m = 5 * n + m := by
  have h1 : intMul 5 n = 5 * n := wrap32_eq_self (by omega) (by omega)
  rw [h1]
  exact wrap32_eq_self (by omega) h

theorem lwa_lmdif_eq {n m : Int} (hn : 0 ≤ n) (hm : 0 ≤ m)
    (h : m * n + 5 * n + m < 2147483648) :
    intAdd (intAdd (intMul m n) (intMul 5 n)) m = m * n + 5 * n + m := by
  have hp : 0 ≤ m * n := mul_nonneg hm hn
  have h1 : intMul m n = m * n := wrap32_eq_self (by omega) (by omega)
  have h2 : intMul 5 n = 5 * n := wrap32_eq_self (by omega) (by omega)
  have h3 : intAdd (m * n) (5 * n) = m * n + 5 * n := wrap32_eq_self (by omega) (by omega)
  rw [h1, h2, h3]
  exact wrap32_eq_self (by omega) h

theorem ei_hybrd_isSome (x fvec : VectorX α) (fjac : MatrixX α) (R qtf diag : VectorX α)
    (mode ml mu maxfev : Int) (factor xtol epsfcn : α) (nprint : Int)
    (h : x.size * (x.size + 1) < 2147483648) :
    ∃ c, ei_hybrd x fvec fjac R qtf diag mode ml mu maxfev factor xtol epsfcn nprint
      = some c := by
  have h0 := x.size_nonneg
  have h1 := x.size_lt_two_pow
  have hlr := lr_eq h0 h
  have hp : 0 ≤ x.size * (x.size + 1) := mul_nonneg h0 (by omega)
  obtain ⟨wa, hwa⟩ : ∃ v : VectorX α, VectorX.ofSize x.size = some v :=
    VectorX.ofSize_isSome h0 h1
  obtain ⟨fv, hfv⟩ := fvec.resize_isSome h0 h1
  obtain ⟨q, hq⟩ := qtf.resize_isSome h0 h1
  obtain ⟨r, hr⟩ := R.resize_isSome (show 0 ≤ x.size * (x.size + 1) / 2 by omega)
    (show x.size * (x.size + 1) / 2 < 2147483648 by omega)
  obtain ⟨fj, hfj⟩ := fjac.resize_mat_isSome h0 h1 h0 h1
  unfold ei_hybrd
  simp only [hlr, hwa, hfv, hq, hr, hfj, Option.bind_eq_bind, Option.some_bind,
    Option.pure_def]
  exact ⟨_, rfl⟩

theorem ei_hybrj_some {x fvec : VectorX α} {fjac : MatrixX α} {R qtf diag : VectorX α}
    {mode maxfev : Int} {factor xtol : α} {nprint : Int} {c : HybrjCall α}
    (h : ei_hybrj x fvec fjac R qtf diag mode maxfev factor xtol nprint = some c) :
    c.n = x.size ∧ c.ldfjac = x.size ∧ (c.fjac.rows : Int) = x.size ∧
      (c.fjac.cols : Int) = x.size ∧ c.diag = diag := by
  unfold ei_hybrj at h
  simp only [Option.bind_eq_bind, Option.bind_eq_some, Option.pure_def,
    Option.some.injEq] at h
  obtain ⟨wa1, -, wa2, -, wa3, -, wa4, -, fv, -, q, -, r, -, fj, hfj, rfl⟩ := h
  have := MatrixX.shape_of_resize hfj
  exact ⟨rfl, rfl, this.1, this.2, rfl⟩

theorem ei_hybrj_isSome (x fvec : VectorX α) (fjac : MatrixX α) (R qtf diag : VectorX α)
    (mode maxfev : Int) (factor xtol : α) (nprint : Int)
    (h : x.size * (x.size + 1) < 2147483648) :
    ∃ c, ei_hybrj x fvec fjac R qtf diag mode maxfev factor xtol nprint = some c := by
  have h0 := x.size_nonneg
  have h1 := x.size_lt_two_pow
  have hlr := lr_eq h0 h
  have hp : 0 ≤ x.size * (x.size + 1) := mul_nonneg h0 (by omega)
  obtain ⟨wa, hwa⟩ : ∃ v : VectorX α, VectorX.ofSize x.size = some v :=
    VectorX.ofSize_isSome h0 h1
  obtain ⟨fv, hfv⟩ := fvec.resize_isSome h0 h1
  obtain ⟨q, hq⟩ := qtf.resize_isSome h0 h1
  obtain ⟨r, hr⟩ := R.resize_isSome (show 0 ≤ x.size * (x.size + 1) / 2 by omega)
    (show x.size * (x.size + 1) / 2 < 2147483648 by omega)
  obtain ⟨fj, hfj⟩ := fjac.resize_mat_isSome h0 h1 h0 h1
  unfold ei_hybrj
  simp only [hlr, hwa, hfv, hq, hr, hfj, Option.bind_eq_bind, Option.some_bind,
    Option.pure_def]
  exact ⟨_, rfl⟩

theorem ei_hybrj1_some {x fvec : VectorX α} {fjac : MatrixX α} {tol : α}
    {c : Hybrj1Call α} (h : ei_hybrj1 x fvec fjac tol = some c) :
    c.n = x.size ∧ c.ldfjac = x.size ∧ (c.fjac.rows : Int) = x.size ∧
      (c.fjac.cols : Int) = x.size ∧ c.wa.size = c.lwa ∧
      c.lwa = intDiv (intMul x.size (intAdd (intMul 3 x.size) 13)) 2 := by
  unfold ei_hybrj1 at h
  simp only [Option.bind_eq_bind, Option.bind_eq_some, Option.pure_def,
    Option.some.injEq] at h
  obtain ⟨wa, hwa, fv, -, fj, hfj, rfl⟩ := h
  have := MatrixX.shape_of_resize hfj
  exact ⟨rfl, rfl, this.1, this.2, VectorX.size_of_ofSize hwa, rfl⟩

theorem ei_hybrj1_isSome (x fvec : VectorX α) (fjac : MatrixX α) (tol : α)
    (h : x.size * (3 * x.size + 13) < 2147483648) :
    ∃ c, ei_hybrj1 x fvec fjac tol = some c := by
  have h0 := x.size_nonneg
  have h1 := x.size_lt_two_pow
  have hlwa := lwa_hybr_eq h0 h
  have hp : 0 ≤ x.size * (3 * x.size + 13) := mul_nonneg h0 (by omega)
  obtain ⟨wa, hwa⟩ : ∃ v : VectorX α,
      VectorX.ofSize (x.size * (3 * x.size + 13) / 2) = some v :=
    VectorX.ofSize_isSome (by omega) (by omega)
  obtain ⟨fv, hfv⟩ := fvec.resize_isSome h0 h1
  obtain ⟨fj, hfj⟩ := fjac.resize_mat_isSome h0 h1 h0 h1
  unfold ei_hybrj1
  simp only [hlwa, hwa, hfv, hfj, Option.bind_eq_bind, Option.some_bind, Option.pure_def]
  exact ⟨_, rfl⟩

theorem ei_hybrd1_some {x fvec : VectorX α} {tol : α} {c : Hybrd1Call α}
    (h : ei_hybrd1 x fvec tol = some c) :
    c.n = x.size ∧ c.wa.size = c.lwa ∧
      c.lwa = intDiv (intMul x.size (intAdd (intMul 3 x.size) 13)) 2 := by
  unfold ei_hybrd1 at h
  simp only [Option.bind_eq_bind, Option.bind_eq_some, Option.pure_def,
    Option.some.injEq] at h
  obtain ⟨wa, hwa, fv, -, rfl⟩ := h
  exact ⟨rfl, VectorX.size_of_ofSize hwa, rfl⟩

theorem ei_hybrd1_isSome (x fvec : VectorX α) (tol : α)
    (h : x.size * (3 * x.size + 13) < 2147483648) :
    ∃ c, ei_hybrd1 x fvec tol = some c := by
  have h0 := x.size_nonneg
  have h1 := x.size_lt_two_pow
  have hlwa := lwa_hybr_eq h0 h
  have hp : 0 ≤ x.size * (3 * x.size + 13) := mul_nonneg h0 (by omega)
  obtain ⟨wa, hwa⟩ : ∃ v : VectorX α,
      VectorX.ofSize (x.size * (3 * x.size + 13) / 2) = some v :=
    VectorX.ofSize_isSome (by omega) (by omega)
  obtain ⟨fv, hfv⟩ := fvec.resize_isSome h0 h1
  unfold ei_hybrd1
  simp only [hlwa, hwa, hfv, Option.bind_eq_bind, Option.some_bind, Option.pure_def]
  exact ⟨_, rfl⟩


theorem ei_lmstr_total (x fvec : VectorX α) (fjac : MatrixX α) (ipvt : VectorX Int)
    (diag : VectorX α) (mode : Int) (factor : Double) (maxfev : Int)
    (ftol xtol gtol : α) (nprint : Int) :
    ∃ c, ei_lmstr x fvec fjac ipvt diag mode factor maxfev ftol xtol gtol nprint = some c ∧
      c.m = fvec.size ∧ c.n = x.size ∧ c.ldfjac = fvec.size ∧
      (c.fjac.rows : Int) = fvec.size ∧ (c.fjac.cols : Int) = x.size ∧
      c.diag.size = x.size := by
  have hn0 := x.size_nonneg
  have hn1 := x.size_lt_two_pow
  have hm0 := fvec.size_nonneg
  have hm1 := fvec.size_lt_two_pow
  obtain ⟨vn, hvn⟩ : ∃ v : VectorX α, VectorX.ofSize x.size = some v :=
    VectorX.ofSize_isSome hn0 hn1
  obtain ⟨vm, hvm⟩ : ∃ v : VectorX α, VectorX.ofSize fvec.size = some v :=
    VectorX.ofSize_isSome hm0 hm1
  obtain ⟨ip, hip⟩ := ipvt.resize_isSome hn0 hn1
  obtain ⟨fj, hfj⟩ := fjac.resize_mat_isSome hm0 hm1 hn0 hn1
  obtain ⟨d, hd⟩ := diag.resize_isSome hn0 hn1
  have hs := MatrixX.shape_of_resize hfj
  unfold ei_lmstr
  simp only [hvn, hvm, hip, hfj, hd, Option.bind_eq_bind, Option.some_bind,
    Option.pure_def]
  exact ⟨_, rfl, rfl, rfl, rfl, hs.1, hs.2, VectorX.size_of_resize hd⟩

theorem ei_lmder_total (x fvec : VectorX α) (fjac : MatrixX α) (ipvt : VectorX Int)
    (diag : VectorX α) (mode : Int) (factor : Double) (maxfev : Int)
    (ftol xtol gtol : α) (nprint : Int) :
    ∃ c, ei_lmder x fvec fjac ipvt diag mode factor maxfev ftol xtol gtol nprint = some c ∧
      c.m = fvec.size ∧ c.n = x.size ∧ c.ldfjac = fvec.size ∧
      (c.fjac.rows : Int) = fvec.size ∧ (c.fjac.cols : Int) = x.size ∧
      c.diag.size = x.size := by
  have hn0 := x.size_nonneg
  have hn1 := x.size_lt_two_pow
  have hm0 := fvec.size_nonneg
  have hm1 := fvec.size_lt_two_pow
  obtain ⟨vn, hvn⟩ : ∃ v : VectorX α, VectorX.ofSize x.size = some v :=
    VectorX.ofSize_isSome hn0 hn1
  obtain ⟨vm, hvm⟩ : ∃ v : VectorX α, VectorX.ofSize fvec.size = some v :=
    VectorX.ofSize_isSome hm0 hm1
  obtain ⟨ip, hip⟩ := ipvt.resize_isSome hn0 hn1
  obtain ⟨fj, hfj⟩ := fjac.resize_mat_isSome hm0 hm1 hn0 hn1
  obtain ⟨d, hd⟩ := diag.resize_isSome hn0 hn1
  have hs := MatrixX.shape_of_resize hfj
  unfold ei_lmder
  simp only [hvn, hvm, hip, hfj, hd, Option.bind_eq_bind, Option.some_bind,
    Option.pure_def]
  exact ⟨_, rfl, rfl, rfl, rfl, hs.1, hs.2, VectorX.size_of_resize hd⟩

theorem ei_lmdif_total (x fvec : VectorX α) (fjac : MatrixX α) (ipvt : VectorX Int)
    (diag : VectorX α) (mode : Int) (factor : Double) (maxfev : Int)
    (ftol xtol gtol epsfcn : α) (nprint : Int) :
    ∃ c, ei_lmdif x fvec fjac ipvt diag mode factor maxfev ftol xtol gtol epsfcn nprint = some c ∧
      c.m = fvec.size ∧ c.n = x.size ∧ c.ldfjac = fvec.size ∧
      (c.fjac.rows : Int) = fvec.size ∧ (c.fjac.cols : Int) = x.size ∧
      c.diag.size = x.size := by
  have hn0 := x.size_nonneg
  have hn1 := x.size_lt_two_pow
  have hm0 := fvec.size_nonneg
  have hm1 := fvec.size_lt_two_pow
  obtain ⟨vn, hvn⟩ : ∃ v : VectorX α, VectorX.ofSize x.size = some v :=
    VectorX.ofSize_isSome hn0 hn1
  obtain ⟨vm, hvm⟩ : ∃ v : VectorX α, VectorX.ofSize fvec.size = some v :=
    VectorX.ofSize_isSome hm0 hm1
  obtain ⟨ip, hip⟩ := ipvt.resize_isSome hn0 hn1
  obtain ⟨fj, hfj⟩ := fjac.resize_mat_isSome hm0 hm1 hn0 hn1
  obtain ⟨d, hd⟩ := diag.resize_isSome hn0 hn1
  have hs := MatrixX.shape_of_resize hfj
  unfold ei_lmdif
  simp only [hvn, hvm, hip, hfj, hd, Option.bind_eq_bind, Option.some_bind,
    Option.pure_def]
  exact ⟨_, rfl, rfl, rfl, rfl, hs.1, hs.2, VectorX.size_of_resize hd⟩

theorem ei_lmstr1_total (x fvec : VectorX α) (ipvt : VectorX Int) (tol : α)
    (h : 5 * x.size + fvec.size < 2147483648) :
    ∃ c, ei_lmstr1 x fvec ipvt tol = some c ∧ c.m = fvec.size ∧ c.n = x.size ∧
      c.wa.size = c.lwa ∧ c.lwa = 5 * x.size + fvec.size := by
  have hn0 := x.size_nonneg
  have hn1 := x.size_lt_two_pow
  have hm0 := fvec.size_nonneg
  have hm1 := fvec.size_lt_two_pow
  have hlwa := lwa_lm_eq hn0 hm0 h
  obtain ⟨wa, hwa⟩ : ∃ v : VectorX α,
      VectorX.ofSize (5 * x.size + fvec.size) = some v :=
    VectorX.ofSize_isSome (by omega) h
  obtain ⟨fj, hfj⟩ : ∃ w : MatrixX α, MatrixX.ofSize fvec.size x.size = some w :=
    MatrixX.ofSize_mat_isSome hm0 hm1 hn0 hn1
  obtain ⟨ip, hip⟩ := ipvt.resize_isSome hn0 hn1
  unfold ei_lmstr1
  simp only [hlwa, hwa, hfj, hip, Option.bind_eq_bind, Option.some_bind, Option.pure_def]
  exact ⟨_, rfl, rfl, rfl, VectorX.size_of_ofSize hwa, rfl⟩

theorem ei_lmder1_total (x fvec : VectorX α) (ipvt : VectorX Int) (tol : α)
    (h : 5 * x.size + fvec.size < 2147483648) :
    ∃ c, ei_lmder1 x fvec ipvt tol = some c ∧ c.m = fvec.size ∧ c.n = x.size ∧
      c.wa.size = c.lwa ∧ c.lwa = 5 * x.size + fvec.size := by
  have hn0 := x.size_nonneg
  have hn1 := x.size_lt_two_pow
  have hm0 := fvec.size_nonneg
  have hm1 := fvec.size_lt_two_pow
  have hlwa := lwa_lm_eq hn0 hm0 h
  obtain ⟨wa, hwa⟩ : ∃ v : VectorX α,
      VectorX.ofSize (5 * x.size + fvec.size) = some v :=
    VectorX.ofSize_isSome (by omega) h
  obtain ⟨fj, hfj⟩ : ∃ w : MatrixX α, MatrixX.ofSize fvec.size x.size = some w :=
    MatrixX.ofSize_mat_isSome hm0 hm1 hn0 hn1
  obtain ⟨ip, hip⟩ := ipvt.resize_isSome hn0 hn1
  unfold ei_lmder1
  simp only [hlwa, hwa, hfj, hip, Option.bind_eq_bind, Option.some_bind, Option.pure_def]
  exact ⟨_, rfl, rfl, rfl, VectorX.size_of_ofSize hwa, rfl⟩

theorem ei_lmdif1_total (x fvec : VectorX α) (iwa : VectorX Int) (tol : α)
    (h : fvec.size * x.size + 5 * x.size + fvec.size < 2147483648) :
    ∃ c, ei_lmdif1 x fvec iwa tol = some c ∧ c.m = fvec.size ∧ c.n = x.size ∧
      c.wa.size = c.lwa ∧ c.lwa = fvec.size * x.size + 5 * x.size + fvec.size := by
  have hn0 := x.size_nonneg
  have hn1 := x.size_lt_two_pow
  have hm0 := fvec.size_nonneg
  have hm1 := fvec.size_lt_two_pow
  have hp : 0 ≤ fvec.size * x.size := mul_nonneg hm0 hn0
  have hlwa := lwa_lmdif_eq hn0 hm0 h
  obtain ⟨wa, hwa⟩ : ∃ v : VectorX α,
      VectorX.ofSize (fvec.size * x.size + 5 * x.size + fvec.size) = some v :=
    VectorX.ofSize_isSome (by omega) h
  obtain ⟨fj, hfj⟩ : ∃ w : MatrixX α, MatrixX.ofSize fvec.size x.size = some w :=
    MatrixX.ofSize_mat_isSome hm0 hm1 hn0 hn1
  obtain ⟨ip, hip⟩ := iwa.resize_isSome hn0 hn1
  obtain ⟨wa2, hwa2⟩ := wa.resize_isSome (show 0 ≤ fvec.size * x.size + 5 * x.size
    + fvec.size by omega) h
  unfold ei_lmdif1
  simp only [hlwa, hwa, hfj, hip, hwa2, Option.bind_eq_bind, Option.some_bind,
    Option.pure_def]
  exact ⟨_, rfl, rfl, rfl, VectorX.size_of_resize hwa2, rfl⟩

end AdapterFacts

/-! ## The visiting order of `initSparse` -/

theorem cells_succ (rows cols : Nat) :
    cells rows (cols + 1) = cells rows cols ++ (List.range rows).map (fun i => (i, cols)) := by
  simp [cells, List.range_succ, List.flatMap_append]

theorem mem_cells {rows cols : Nat} {c : Nat × Nat} :
    c ∈ cells rows cols ↔ c.1 < rows ∧ c.2 < cols := by
  obtain ⟨i, j⟩ := c
  simp only [cells, List.mem_flatMap, List.mem_map, List.mem_range, Prod.mk.injEq]
  constructor
  · rintro ⟨j', hj, i', hi, rfl, rfl⟩
    exact ⟨hi, hj⟩
  · rintro ⟨hi, hj⟩
    exact ⟨j, hj, i, hi, rfl, rfl⟩

theorem length_cells (rows cols : Nat) : (cells rows cols).length = rows * cols := by
  induction cols with
  | zero => simp [cells]
  | succ k ih => rw [cells_succ, List.length_append, ih]; simp [Nat.mul_succ]

theorem cells_pairwise (rows cols : Nat) : (cells rows cols).Pairwise colMajorLt := by
  induction cols with
  | zero => simp [cells]
  | succ k ih =>
    rw [cells_succ, List.pairwise_append]
    refine ⟨ih, ?_, ?_⟩
    · rw [List.pairwise_map]
      exact (List.pairwise_lt_range rows).imp (fun h => Or.inr ⟨rfl, h⟩)
    · intro a ha b hb
      rw [List.mem_map] at hb
      obtain ⟨i, -, rfl⟩ := hb
      exact Or.inl (mem_cells.1 ha).2

theorem colMajorLt_ne {a b : Nat × Nat} (h : colMajorLt a b) : a ≠ b := by
  rintro rfl
  rcases h with h | ⟨-, h⟩ <;> exact absurd h (lt_irrefl _)

theorem cells_nodup (rows cols : Nat) : (cells rows cols).Nodup :=
  (cells_pairwise rows cols).imp colMajorLt_ne

theorem foldl_cells {σ : Type} (f : σ → Nat × Nat → σ) (rows cols : Nat) (s : σ) :
    (List.range cols).foldl
        (fun st j => (List.range rows).foldl (fun st i => f st (i, j)) st) s
      = (cells rows cols).foldl f s := by
  induction cols with
  | zero => simp [cells]
  | succ k ih =>
    rw [cells_succ, List.foldl_append, ← ih, List.range_succ, List.foldl_append,
      List.foldl_map]
    rfl

section InitSparseFacts

variable {α : Type} [LinearOrderedRing α] [ScalarArith α]

/-! ## One pass of the loop body -/

theorem initSparseCoeff_rnd (src : RandomSource α) (density : Double) (flags : Int)
    (st : InitSparseState α) (c : Nat × Nat) :
    (initSparseCoeff src density flags st c).rnd
      = (drawCoeff src density flags c.1 c.2 st.rnd).2 := by
  unfold initSparseCoeff storeCoeff
  simp only
  split <;> rfl

theorem initSparseCoeff_refMat (src : RandomSource α) (density : Double) (flags : Int)
    (st : InitSparseState α) (c : Nat × Nat) :
    (initSparseCoeff src density flags st c).refMat
      = st.refMat.set c.1 c.2 (coeffValue src density flags st.rnd c) := by
  unfold initSparseCoeff storeCoeff coeffValue
  simp only
  split <;> rfl

theorem initSparseCoeff_nonzeroCoords (src : RandomSource α) (density : Double)
    (flags : Int) (st : InitSparseState α) (c : Nat × Nat) :
    (initSparseCoeff src density flags st c).nonzeroCoords
      = st.nonzeroCoords.map (fun l =>
          l ++ if coeffValue src density flags st.rnd c ≠ 0 then [c] else []) := by
  unfold initSparseCoeff storeCoeff coeffValue
  simp only
  split <;> cases st.nonzeroCoords <;> simp

theorem initSparseCoeff_zeroCoords (src : RandomSource α) (density : Double)
    (flags : Int) (st : InitSparseState α) (c : Nat × Nat) :
    (initSparseCoeff src density flags st c).zeroCoords
      = st.zeroCoords.map (fun l =>
          l ++ if coeffValue src density flags st.rnd c = 0 then [c] else []) := by
  unfold initSparseCoeff storeCoeff coeffValue
  simp only
  split <;> cases st.zeroCoords <;> simp_all

theorem initSparseCoeff_entries (src : RandomSource α) (density : Double)
    (flags : Int) (st : InitSparseState α) (c : Nat × Nat) :
    (initSparseCoeff src density flags st c).sparseMat.entries
      = st.sparseMat.entries ++
          if coeffValue src density flags st.rnd c ≠ 0
          then [(c.1, c.2, coeffValue src density flags st.rnd c)] else [] := by
  unfold initSparseCoeff storeCoeff coeffValue SparseMatrix.fill
  simp only
  split <;> simp


/-! ## The loop as a fold over a list of coordinates -/

theorem foldl_refMat_shape (src : RandomSource α) (density : Double) (flags : Int)
    (cs : List (Nat × Nat)) (st : InitSparseState α) :
    (cs.foldl (initSparseCoeff src density flags) st).refMat.rows = st.refMat.rows ∧
    (cs.foldl (initSparseCoeff src density flags) st).refMat.cols = st.refMat.cols := by
  induction cs generalizing st with
  | nil => exact ⟨rfl, rfl⟩
  | cons a l ih =>
    rw [List.foldl_cons]
    have h := ih (initSparseCoeff src density flags st a)
    rw [initSparseCoeff_refMat] at h
    exact h

theorem foldl_refMat_frame (src : RandomSource α) (density : Double) (flags : Int)
    (cs : List (Nat × Nat)) (st : InitSparseState α) (c : Nat × Nat) (hc : c ∉ cs) :
    (cs.foldl (initSparseCoeff src density flags) st).refMat.coeff c.1 c.2
      = st.refMat.coeff c.1 c.2 := by
  induction cs generalizing st with
  | nil => rfl
  | cons a l ih =>
    rw [List.foldl_cons, ih _ (fun h => hc (List.mem_cons_of_mem _ h)),
      initSparseCoeff_refMat]
    have hne : ¬ (c.1 = a.1 ∧ c.2 = a.2) := by
      rintro ⟨h1, h2⟩
      exact hc (by rw [Prod.ext h1 h2]; exact List.mem_cons_self _ _)
    simp only [MatrixX.set, if_neg hne]

theorem foldl_refMat_head (src : RandomSource α) (density : Double) (flags : Int)
    (a : Nat × Nat) (l : List (Nat × Nat)) (st : InitSparseState α) (ha : a ∉ l) :
    ((a :: l).foldl (initSparseCoeff src density flags) st).refMat.coeff a.1 a.2
      = coeffValue src density flags st.rnd a := by
  rw [List.foldl_cons, foldl_refMat_frame src density flags l _ a ha,
    initSparseCoeff_refMat]
  simp [MatrixX.set]

theorem foldl_refMat_value (src : RandomSource α) (density : Double) (flags : Int)
    (cs : List (Nat × Nat)) (hcs : cs.Nodup) (st : InitSparseState α) (c : Nat × Nat)
    (hc : c ∈ cs) :
    ∃ rnd, (cs.foldl (initSparseCoeff src density flags) st).refMat.coeff c.1 c.2
      = coeffValue src density flags rnd c := by
  induction cs generalizing st with
  | nil => cases hc
  | cons a l ih =>
    rw [List.nodup_cons] at hcs
    rcases List.mem_cons.1 hc with rfl | h
    · exact ⟨st.rnd, foldl_refMat_head src density flags c l st hcs.1⟩
    · rw [List.foldl_cons]
      exact ih hcs.2 _ h

theorem foldl_nonzeroCoords (src : RandomSource α) (density : Double) (flags : Int)
    (cs : List (Nat × Nat)) (hcs : cs.Nodup) (st : InitSparseState α) :
    (cs.foldl (initSparseCoeff src density flags) st).nonzeroCoords
      = st.nonzeroCoords.map (fun l => l ++ cs.filter (fun c =>
          decide ((cs.foldl (initSparseCoeff src density flags) st).refMat.coeff c.1 c.2
            ≠ 0))) := by
  induction cs generalizing st with
  | nil => cases h : st.nonzeroCoords <;> simp [h]
  | cons a l ih =>
    rw [List.nodup_cons] at hcs
    have hv := foldl_refMat_head src density flags a l st hcs.1
    rw [List.filter_cons, hv]
    rw [List.foldl_cons, ih hcs.2, initSparseCoeff_nonzeroCoords]
    cases st.nonzeroCoords with
    | none => rfl
    | some l0 =>
      by_cases h : coeffValue src density flags st.rnd a ≠ 0
      · simp [h]
      · simp [h]

theorem foldl_zeroCoords (src : RandomSource α) (density : Double) (flags : Int)
    (cs : List (Nat × Nat)) (hcs : cs.Nodup) (st : InitSparseState α) :
    (cs.foldl (initSparseCoeff src density flags) st).zeroCoords
      = st.zeroCoords.map (fun l => l ++ cs.filter (fun c =>
          decide ((cs.foldl (initSparseCoeff src density flags) st).refMat.coeff c.1 c.2
            = 0))) := by
  induction cs generalizing st with
  | nil => cases h : st.zeroCoords <;> simp [h]
  | cons a l ih =>
    rw [List.nodup_cons] at hcs
    have hv := foldl_refMat_head src density flags a l st hcs.1
    rw [List.filter_cons, hv]
    rw [List.foldl_cons, ih hcs.2, initSparseCoeff_zeroCoords]
    cases st.zeroCoords with
    | none => rfl
    | some l0 =>
      by_cases h : coeffValue src density flags st.rnd a = 0
      · simp [h]
      · simp [h]

theorem foldl_entries (src : RandomSource α) (density : Double) (flags : Int)
    (cs : List (Nat × Nat)) (hcs : cs.Nodup) (st : InitSparseState α) :
    (cs.foldl (initSparseCoeff src density flags) st).sparseMat.entries
      = st.sparseMat.entries ++ (cs.filter (fun c =>
          decide ((cs.foldl (initSparseCoeff src density flags) st).refMat.coeff c.1 c.2
            ≠ 0))).map (fun c => (c.1, c.2,
          (cs.foldl (initSparseCoeff src density flags) st).refMat.coeff c.1 c.2)) := by
  induction cs generalizing st with
  | nil => simp
  | cons a l ih =>
    rw [List.nodup_cons] at hcs
    have hv := foldl_refMat_head src density flags a l st hcs.1
    rw [List.filter_cons, hv]
    rw [List.foldl_cons, ih hcs.2, initSparseCoeff_entries]
    rw [List.foldl_cons] at hv
    by_cases h : coeffValue src density flags st.rnd a ≠ 0
    · simp [h, hv]
    · simp [h]

end InitSparseFacts

section InitSparseRun

variable {α : Type} [LinearOrderedRing α] [ScalarArith α]

/-! ## The whole run of `initSparse` -/

theorem initSparse_eq (src : RandomSource α) (rnd : RandomState) (density : Double)
    (refMat : MatrixX α) (sparseMat : SparseMatrix α) (flags : Int)
    (zeroCoords nonzeroCoords : Option (List (Nat × Nat))) :
    initSparse src rnd density refMat sparseMat flags zeroCoords nonzeroCoords
      = (cells refMat.rows refMat.cols).foldl (initSparseCoeff src density flags)
          { rnd := rnd, refMat := refMat, sparseMat := ⟨[]⟩,
            zeroCoords := zeroCoords, nonzeroCoords := nonzeroCoords } := by
  unfold initSparse
  simp only [foldl_cells]
  rfl

theorem initSparse_shape (src : RandomSource α) (rnd : RandomState) (density : Double)
    (refMat : MatrixX α) (sparseMat : SparseMatrix α) (flags : Int)
    (zeroCoords nonzeroCoords : Option (List (Nat × Nat))) :
    (initSparse src rnd density refMat sparseMat flags zeroCoords nonzeroCoords).refMat.rows
        = refMat.rows ∧
    (initSparse src rnd density refMat sparseMat flags zeroCoords nonzeroCoords).refMat.cols
        = refMat.cols := by
  rw [initSparse_eq]
  exact foldl_refMat_shape src density flags _ _

theorem initSparse_entries (src : RandomSource α) (rnd : RandomState) (density : Double)
    (refMat : MatrixX α) (sparseMat : SparseMatrix α) (flags : Int)
    (zeroCoords nonzeroCoords : Option (List (Nat × Nat))) :
    (initSparse src rnd density refMat sparseMat flags zeroCoords
        nonzeroCoords).sparseMat.entries
      = ((cells refMat.rows refMat.cols).filter (fun c => decide
          ((initSparse src rnd density refMat sparseMat flags zeroCoords
            nonzeroCoords).refMat.coeff c.1 c.2 ≠ 0))).map (fun c => (c.1, c.2,
          (initSparse src rnd density refMat sparseMat flags zeroCoords
            nonzeroCoords).refMat.coeff c.1 c.2)) := by
  rw [initSparse_eq, foldl_entries src density flags _ (cells_nodup _ _)]
  rfl

theorem initSparse_nonzeroCoords (src : RandomSource α) (rnd : RandomState)
    (density : Double) (refMat : MatrixX α) (sparseMat : SparseMatrix α) (flags : Int)
    (zeroCoords : Option (List (Nat × Nat))) (l0 : List (Nat × Nat)) :
    (initSparse src rnd density refMat sparseMat flags zeroCoords (some l0)).nonzeroCoords
      = some (l0 ++ (cells refMat.rows refMat.cols).filter (fun c => decide
          ((initSparse src rnd density refMat sparseMat flags zeroCoords
            (some l0)).refMat.coeff c.1 c.2 ≠ 0))) := by
  rw [initSparse_eq, foldl_nonzeroCoords src density flags _ (cells_nodup _ _)]
  rfl

theorem initSparse_zeroCoords (src : RandomSource α) (rnd : RandomState)
    (density : Double) (refMat : MatrixX α) (sparseMat : SparseMatrix α) (flags : Int)
    (nonzeroCoords : Option (List (Nat × Nat))) (l0 : List (Nat × Nat)) :
    (initSparse src rnd density refMat sparseMat flags (some l0) nonzeroCoords).zeroCoords
      = some (l0 ++ (cells refMat.rows refMat.cols).filter (fun c => decide
          ((initSparse src rnd density refMat sparseMat flags (some l0)
            nonzeroCoords).refMat.coeff c.1 c.2 = 0))) := by
  rw [initSparse_eq, foldl_zeroCoords src density flags _ (cells_nodup _ _)]
  rfl

theorem initSparse_value (src : RandomSource α) (rnd : RandomState) (density : Double)
    (refMat : MatrixX α) (sparseMat : SparseMatrix α) (flags : Int)
    (zeroCoords nonzeroCoords : Option (List (Nat × Nat))) (i j : Nat)
    (hi : i < refMat.rows) (hj : j < refMat.cols) :
    ∃ r, (initSparse src rnd density refMat sparseMat flags zeroCoords
        nonzeroCoords).refMat.coeff i j = coeffValue src density flags r (i, j) := by
  rw [initSparse_eq]
  exact foldl_refMat_value src density flags _ (cells_nodup _ _) _ (i, j)
    (mem_cells.2 ⟨hi, hj⟩)

end InitSparseRun

section ShapeValues

variable {α : Type} [LinearOrderedRing α]

/-! ## The value of one coefficient -/

theorem shapeCoeff_diag (flags : Int) (i : Nat) (v : α) : shapeCoeff flags i i v = v := by
  simp [shapeCoeff]

theorem shapeCoeff_lower {flags : Int} {i j : Nat} (v : α)
    (h : hasFlag flags MakeLowerTriangular) (hij : i < j) : shapeCoeff flags i j v = 0 := by
  simp [shapeCoeff, h, hij]

theorem shapeCoeff_upper {flags : Int} {i j : Nat} (v : α)
    (h : hasFlag flags MakeUpperTriangular) (hij : j < i) : shapeCoeff flags i j v = 0 := by
  unfold shapeCoeff
  split
  · rfl
  · rw [if_pos ⟨h, hij⟩]

theorem shapeCoeff_eq_zero_or (flags : Int) (i j : Nat) (v : α) :
    shapeCoeff flags i j v = 0 ∨ shapeCoeff flags i j v = v := by
  unfold shapeCoeff
  split
  · exact Or.inl rfl
  · split
    · exact Or.inl rfl
    · exact Or.inr rfl

end ShapeValues

section CoeffValues

variable {α : Type} [LinearOrderedRing α] [ScalarArith α]

theorem exactArith_mul (a b : ℚ) : ScalarArith.mul a b = a * b := rfl

theorem exactArith_add (a b : ℚ) : ScalarArith.add a b = a + b := rfl

theorem floorArith_mul_rounds :
    floorArith.mul (1 / 10) 3 = 307 / 1024 ∧ floorArith.mul (1 / 10) 3 ≠ 1 / 10 * 3 := by
  have h : ⌊(1 / 10 : ℚ) * 3 * 1024⌋ = 307 :=
    Int.floor_eq_iff.2 ⟨by norm_num, by norm_num⟩
  have e : floorArith.mul (1 / 10) 3 = 307 / 1024 := by
    show ((⌊(1 / 10 : ℚ) * 3 * 1024⌋ : ℤ) : ℚ) / 1024 = 307 / 1024
    rw [h]
    norm_num
  exact ⟨e, by rw [e]; norm_num⟩

theorem drawCoeff_diag (src : RandomSource α) (density : Double) {flags : Int} (i : Nat)
    (rnd : RandomState) (h : hasFlag flags ForceNonZeroDiag) :
    ∃ k, (drawCoeff src density flags i i rnd).1
      = ScalarArith.add (ScalarArith.mul (ScalarArith.mul (src.scalar k) 3)
          (ScalarArith.mul (src.scalar k) 3)) 5 := by
  unfold drawCoeff
  simp only [h, and_self, if_true, ei_random_scalar, ei_random_unit]
  exact ⟨_, rfl⟩

theorem drawCoeff_offdiag (src : RandomSource α) (density : Double) (flags : Int)
    {i j : Nat} (rnd : RandomState) (hij : i ≠ j) :
    (drawCoeff src density flags i j rnd).1 = 0 ∨
      ∃ k, (drawCoeff src density flags i j rnd).1 = src.scalar k := by
  unfold drawCoeff
  simp only [hij, and_false, if_false, ei_random_scalar, ei_random_unit]
  split
  · exact Or.inr ⟨_, rfl⟩
  · exact Or.inl rfl

theorem drawCoeff_congr (src : RandomSource α) (density : Double) {flags flags2 : Int}
    (i j : Nat) (rnd : RandomState)
    (h : hasFlag flags2 ForceNonZeroDiag ↔ hasFlag flags ForceNonZeroDiag) :
    drawCoeff src density flags2 i j rnd = drawCoeff src density flags i j rnd := by
  unfold drawCoeff
  simp only [h]

theorem coeffValue_diag (src : RandomSource α) (density : Double) (flags : Int) (i : Nat)
    (rnd : RandomState) :
    coeffValue src density flags rnd (i, i) = (drawCoeff src density flags i i rnd).1 := by
  unfold coeffValue
  exact shapeCoeff_diag _ _ _

theorem abs_coeffValue_offdiag (src : RandomSource α) (density : Double) (flags : Int)
    {i j : Nat} (rnd : RandomState) (hsrc : ∀ k, |src.scalar k| ≤ 1) (hij : i ≠ j) :
    |coeffValue src density flags rnd (i, j)| ≤ 1 := by
  unfold coeffValue
  rcases shapeCoeff_eq_zero_or flags i j (drawCoeff src density flags i j rnd).1 with h | h
  · rw [h, abs_zero]; exact zero_le_one
  · rw [h]
    rcases drawCoeff_offdiag src density flags rnd hij with h0 | ⟨k, hk⟩
    · rw [h0, abs_zero]; exact zero_le_one
    · rw [hk]; exact hsrc k

/-- Two runs of the loop that differ only in the triangular flags draw the same values
and agree on the diagonal. -/
theorem foldl_diag_congr (src : RandomSource α) (density : Double) {flags flags2 : Int}
    (h : hasFlag flags2 ForceNonZeroDiag ↔ hasFlag flags ForceNonZeroDiag)
    (cs : List (Nat × Nat)) (hcs : cs.Nodup) (st st2 : InitSparseState α)
    (hrnd : st2.rnd = st.rnd) :
    (cs.foldl (initSparseCoeff src density flags2) st2).rnd
        = (cs.foldl (initSparseCoeff src density flags) st).rnd ∧
    ∀ i, (i, i) ∈ cs →
      (cs.foldl (initSparseCoeff src density flags2) st2).refMat.coeff i i
        = (cs.foldl (initSparseCoeff src density flags) st).refMat.coeff i i := by
  induction cs generalizing st st2 with
  | nil => exact ⟨hrnd, fun i hi => absurd hi (List.not_mem_nil _)⟩
  | cons a l ih =>
    rw [List.nodup_cons] at hcs
    have hstep : (initSparseCoeff src density flags2 st2 a).rnd
        = (initSparseCoeff src density flags st a).rnd := by
      rw [initSparseCoeff_rnd, initSparseCoeff_rnd, hrnd, drawCoeff_congr src density _ _ _ h]
    have ih2 := ih hcs.2 _ _ hstep
    refine ⟨?_, ?_⟩
    · rw [List.foldl_cons, List.foldl_cons]
      exact ih2.1
    · intro i hi
      rcases List.mem_cons.1 hi with rfl | hl
      · have e1 := foldl_refMat_head src density flags2 (i, i) l st2 hcs.1
        have e2 := foldl_refMat_head src density flags (i, i) l st hcs.1
        simp only at e1 e2
        rw [e1, e2, coeffValue_diag, coeffValue_diag, hrnd,
          drawCoeff_congr src density _ _ _ h]
      · rw [List.foldl_cons, List.foldl_cons]
        exact ih2.2 i hl

end CoeffValues

theorem forced_diag_ge_five {α : Type} [LinearOrderedRing α] [ScalarArith α]
    (src : RandomSource α) (rnd : RandomState) (density : Double) (refMat : MatrixX α)
    (sparseMat : SparseMatrix α) (flags : Int)
    (zeroCoords nonzeroCoords : Option (List (Nat × Nat)))
    (hf : hasFlag flags ForceNonZeroDiag) (i : Nat) (hi : i < refMat.rows)
    (hic : i < refMat.cols) :
    5 ≤ (initSparse src rnd density refMat sparseMat flags zeroCoords
        nonzeroCoords).refMat.coeff i i := by
  obtain ⟨r, hr⟩ := initSparse_value src rnd density refMat sparseMat flags zeroCoords
    nonzeroCoords i i hi hic
  obtain ⟨k, hk⟩ := drawCoeff_diag src density i r hf
  rw [coeffValue_diag, hk] at hr
  rw [hr]
  exact ScalarArith.five_le_add_five _ (ScalarArith.zero_le_mul_self _)

/-! ## Claims on the MINPACK adapters -/

/-- C1: whenever a square-system adapter (`ei_hybrd`, `ei_hybrj`, `ei_hybrj1`) reaches its
solver, the Jacobian it hands over is `n`-by-`n` with leading dimension `n`, for every `x`
of length `n` and every incoming `fjac`; the adapter does reach the solver when its size
expression fits an `int`.  The least-squares adapters `ei_lmstr`, `ei_lmder` and `ei_lmdif`
always reach the solver, with an `m`-by-`n` Jacobian of leading dimension `m`, `m` being
the length of the caller's `fvec`. -/
theorem fjac_shape_handed_to_solver {α : Type} [Inhabited α]
    (x fvec R qtf diag : VectorX α) (ipvt : VectorX Int) (fjac : MatrixX α)
    (mode ml mu maxfev nprint : Int) (factor xtol epsfcn ftol gtol tol : α)
    (dfactor : Double) :
    (∀ c, ei_hybrd x fvec fjac R qtf diag mode ml mu maxfev factor xtol epsfcn nprint
        = some c →
      (c.fjac.rows : Int) = x.size ∧ (c.fjac.cols : Int) = x.size ∧
        c.ldfjac = x.size ∧ c.n = x.size) ∧
    (∀ c, ei_hybrj x fvec fjac R qtf diag mode maxfev factor xtol nprint = some c →
      (c.fjac.rows : Int) = x.size ∧ (c.fjac.cols : Int) = x.size ∧
        c.ldfjac = x.size ∧ c.n = x.size) ∧
    (∀ c, ei_hybrj1 x fvec fjac tol = some c →
      (c.fjac.rows : Int) = x.size ∧ (c.fjac.cols : Int) = x.size ∧
        c.ldfjac = x.size ∧ c.n = x.size) ∧
    (x.size * (x.size + 1) < 2147483648 →
      (∃ c, ei_hybrd x fvec fjac R qtf diag mode ml mu maxfev factor xtol epsfcn nprint
        = some c) ∧
      (∃ c, ei_hybrj x fvec fjac R qtf diag mode maxfev factor xtol nprint = some c)) ∧
    (x.size * (3 * x.size + 13) < 2147483648 →
      ∃ c, ei_hybrj1 x fvec fjac tol = some c) ∧
    (∃ c, ei_lmstr x fvec fjac ipvt diag mode dfactor maxfev ftol xtol gtol nprint
        = some c ∧
      (c.fjac.rows : Int) = fvec.size ∧ (c.fjac.cols : Int) = x.size ∧
        c.ldfjac = fvec.size ∧ c.m = fvec.size ∧ c.n = x.size) ∧
    (∃ c, ei_lmder x fvec fjac ipvt diag mode dfactor maxfev ftol xtol gtol nprint
        = some c ∧
      (c.fjac.rows : Int) = fvec.size ∧ (c.fjac.cols : Int) = x.size ∧
        c.ldfjac = fvec.size ∧ c.m = fvec.size ∧ c.n = x.size) ∧
    (∃ c, ei_lmdif x fvec fjac ipvt diag mode dfactor maxfev ftol xtol gtol epsfcn nprint
        = some c ∧
      (c.fjac.rows : Int) = fvec.size ∧ (c.fjac.cols : Int) = x.size ∧
        c.ldfjac = fvec.size ∧ c.m = fvec.size ∧ c.n = x.size) := by
  refine ⟨?_, ?_, ?_, ?_, ?_, ?_, ?_, ?_⟩
  · intro c h
    have := ei_hybrd_some h
    exact ⟨this.2.2.1, this.2.2.2.1, this.2.1, this.1⟩
  · intro c h
    have := ei_hybrj_some h
    exact ⟨this.2.2.1, this.2.2.2.1, this.2.1, this.1⟩
  · intro c h
    have := ei_hybrj1_some h
    exact ⟨this.2.2.1, this.2.2.2.1, this.2.1, this.1⟩
  · intro h
    exact ⟨ei_hybrd_isSome x fvec fjac R qtf diag mode ml mu maxfev factor xtol epsfcn
      nprint h, ei_hybrj_isSome x fvec fjac R qtf diag mode maxfev factor xtol nprint h⟩
  · intro h
    exact ei_hybrj1_isSome x fvec fjac tol h
  · obtain ⟨c, hc, h1, h2, h3, h4, h5, -⟩ :=
      ei_lmstr_total x fvec fjac ipvt diag mode dfactor maxfev ftol xtol gtol nprint
    exact ⟨c, hc, h4, h5, h3, h1, h2⟩
  · obtain ⟨c, hc, h1, h2, h3, h4, h5, -⟩ :=
      ei_lmder_total x fvec fjac ipvt diag mode dfactor maxfev ftol xtol gtol nprint
    exact ⟨c, hc, h4, h5, h3, h1, h2⟩
  · obtain ⟨c, hc, h1, h2, h3, h4, h5, -⟩ :=
      ei_lmdif_total x fvec fjac ipvt diag mode dfactor maxfev ftol xtol gtol epsfcn nprint
    exact ⟨c, hc, h4, h5, h3, h1, h2⟩

/-- C1, at `x` of length 2, `fvec` of length 3 and an empty `fjac`: the size expressions
fit, the three square-system adapters reach their solvers with a 2-by-2 Jacobian of leading
dimension 2, and the Jacobian of `ei_lmder` is 3-by-2 of leading dimension 3. -/
theorem fjac_shape_handed_to_solver_witness :
    vec2.size * (vec2.size + 1) < 2147483648 ∧
    vec2.size * (3 * vec2.size + 13) < 2147483648 ∧
    (∃ c, ei_hybrd vec2 vec3 emptyMat emptyVec emptyVec emptyVec 1 (-1) (-1) 2000 100 0 0 0
        = some c ∧
      (c.fjac.rows : Int) = 2 ∧ (c.fjac.cols : Int) = 2 ∧ c.ldfjac = 2 ∧ c.n = 2) ∧
    (∃ c, ei_hybrj vec2 vec3 emptyMat emptyVec emptyVec emptyVec 1 2000 100 0 0 = some c ∧
      (c.fjac.rows : Int) = 2 ∧ (c.fjac.cols : Int) = 2 ∧ c.ldfjac = 2 ∧ c.n = 2) ∧
    (∃ c, ei_hybrj1 vec2 vec3 emptyMat 0 = some c ∧
      (c.fjac.rows : Int) = 2 ∧ (c.fjac.cols : Int) = 2 ∧ c.ldfjac = 2 ∧ c.n = 2) ∧
    (∃ c, ei_lmder vec2 vec3 emptyMat emptyVecI emptyVec 1 100 2000 0 0 0 0 = some c ∧
      (c.fjac.rows : Int) = vec3.size ∧ (c.fjac.cols : Int) = vec2.size ∧
        c.ldfjac = vec3.size ∧ c.m = vec3.size ∧ c.n = vec2.size) := by
  have T := fjac_shape_handed_to_solver vec2 vec3 emptyVec emptyVec emptyVec emptyVecI
    emptyMat 1 (-1) (-1) 2000 0 100 0 0 0 0 0 100
  obtain ⟨⟨c1, h1⟩, ⟨c2, h2⟩⟩ := T.2.2.2.1 (by decide)
  obtain ⟨c3, h3⟩ := T.2.2.2.2.1 (by decide)
  exact ⟨by decide, by decide, ⟨c1, h1, T.1 c1 h1⟩, ⟨c2, h2, T.2.1 c2 h2⟩,
    ⟨c3, h3, T.2.2.1 c3 h3⟩, T.2.2.2.2.2.2.1⟩

/-- C2: at `x` of length 2 and an empty `diag`, `ei_hybrd` and `ei_hybrj` hand the solver a
`diag` of length 0 for `n = 2`, while `ei_lmstr`, `ei_lmder` and `ei_lmdif` hand over a
`diag` of length 2. -/
theorem hybr_diag_not_resized :
    (ei_hybrd vec2 emptyVec emptyMat emptyVec emptyVec emptyVec 1 (-1) (-1) 2000 100 0 0
        0).map (fun c => (c.n, c.diag.size)) = some (2, 0) ∧
    (ei_hybrj vec2 emptyVec emptyMat emptyVec emptyVec emptyVec 1 1000 100 0
        0).map (fun c => (c.n, c.diag.size)) = some (2, 0) ∧
    (ei_lmstr vec2 vec3 emptyMat emptyVecI emptyVec 1 100 400 0 0 0
        0).map (fun c => (c.n, c.diag.size)) = some (2, 2) ∧
    (ei_lmder vec2 vec3 emptyMat emptyVecI emptyVec 1 100 400 0 0 0
        0).map (fun c => (c.n, c.diag.size)) = some (2, 2) ∧
    (ei_lmdif vec2 vec3 emptyMat emptyVecI emptyVec 1 100 400 0 0 0 0
        0).map (fun c => (c.n, c.diag.size)) = some (2, 2) := by
  decide

/-- C3: when the size expression of a "1"-suffixed adapter fits an `int`, the adapter
reaches its solver with a scratch vector `wa` of exactly `lwa` coefficients, where `lwa` is
`n(3n+13)/2` for `ei_hybrd1` and `ei_hybrj1` (an exact half, the same in both), `5n+m` for
`ei_lmstr1` and `ei_lmder1`, and `m*n+5n+m` for `ei_lmdif1`; so `lwa` is at least that
minimum. -/
theorem lwa_meets_minpack_minimum {α : Type} [Inhabited α] (x fvec : VectorX α)
    (ipvt : VectorX Int) (fjac : MatrixX α) (tol : α) :
    (x.size * (3 * x.size + 13) < 2147483648 →
      ∃ c d, ei_hybrd1 x fvec tol = some c ∧ ei_hybrj1 x fvec fjac tol = some d ∧
        c.wa.size = c.lwa ∧ d.wa.size = d.lwa ∧ c.lwa = d.lwa ∧
        2 * c.lwa = x.size * (3 * x.size + 13) ∧
        x.size * (3 * x.size + 13) / 2 ≤ c.lwa ∧
        x.size * (3 * x.size + 13) / 2 ≤ d.lwa) ∧
    (5 * x.size + fvec.size < 2147483648 →
      ∃ c d, ei_lmstr1 x fvec ipvt tol = some c ∧ ei_lmder1 x fvec ipvt tol = some d ∧
        c.wa.size = c.lwa ∧ d.wa.size = d.lwa ∧
        5 * x.size + fvec.size ≤ c.lwa ∧ 5 * x.size + fvec.size ≤ d.lwa) ∧
    (fvec.size * x.size + 5 * x.size + fvec.size < 2147483648 →
      ∃ c, ei_lmdif1 x fvec ipvt tol = some c ∧ c.wa.size = c.lwa ∧
        fvec.size * x.size + 5 * x.size + fvec.size ≤ c.lwa) := by
  refine ⟨?_, ?_, ?_⟩
  · intro h
    obtain ⟨c, hc⟩ := ei_hybrd1_isSome x fvec tol h
    obtain ⟨d, hd⟩ := ei_hybrj1_isSome x fvec fjac tol h
    have hc' := ei_hybrd1_some hc
    have hd' := ei_hybrj1_some hd
    have hlwa := lwa_hybr_eq x.size_nonneg h
    have hcl : c.lwa = x.size * (3 * x.size + 13) / 2 := by rw [hc'.2.2, hlwa]
    have hdl : d.lwa = x.size * (3 * x.size + 13) / 2 := by rw [hd'.2.2.2.2.2, hlwa]
    refine ⟨c, d, hc, hd, hc'.2.1, hd'.2.2.2.2.1, by rw [hcl, hdl], ?_, ?_, ?_⟩
    · rw [hcl]; exact lwa_hybr_even x.size
    · rw [hcl]
    · rw [hdl]
  · intro h
    obtain ⟨c, hc, -, -, hcw, hcl⟩ := ei_lmstr1_total x fvec ipvt tol h
    obtain ⟨d, hd, -, -, hdw, hdl⟩ := ei_lmder1_total x fvec ipvt tol h
    exact ⟨c, d, hc, hd, hcw, hdw, by rw [hcl], by rw [hdl]⟩
  · intro h
    obtain ⟨c, hc, -, -, hcw, hcl⟩ := ei_lmdif1_total x fvec ipvt tol h
    exact ⟨c, hc, hcw, by rw [hcl]⟩

/-- C3, at `x` of length 2 and `fvec` of length 3: the three size expressions are 38, 13
and 19, and each adapter reaches its solver. -/
theorem lwa_meets_minpack_minimum_witness :
    (vec2.size * (3 * vec2.size + 13) < 2147483648 ∧
      ∃ c d, ei_hybrd1 vec2 vec3 0 = some c ∧ ei_hybrj1 vec2 vec3 emptyMat 0 = some d ∧
        c.wa.size = c.lwa ∧ d.wa.size = d.lwa ∧ c.lwa = d.lwa ∧
        2 * c.lwa = vec2.size * (3 * vec2.size + 13) ∧
        vec2.size * (3 * vec2.size + 13) / 2 ≤ c.lwa ∧
        vec2.size * (3 * vec2.size + 13) / 2 ≤ d.lwa) ∧
    (5 * vec2.size + vec3.size < 2147483648 ∧
      ∃ c d, ei_lmstr1 vec2 vec3 emptyVecI 0 = some c ∧
        ei_lmder1 vec2 vec3 emptyVecI 0 = some d ∧
        c.wa.size = c.lwa ∧ d.wa.size = d.lwa ∧
        5 * vec2.size + vec3.size ≤ c.lwa ∧ 5 * vec2.size + vec3.size ≤ d.lwa) ∧
    (vec3.size * vec2.size + 5 * vec2.size + vec3.size < 2147483648 ∧
      ∃ c, ei_lmdif1 vec2 vec3 emptyVecI 0 = some c ∧ c.wa.size = c.lwa ∧
        vec3.size * vec2.size + 5 * vec2.size + vec3.size ≤ c.lwa) :=
  ⟨⟨by decide, (lwa_meets_minpack_minimum vec2 vec3 emptyVecI emptyMat 0).1 (by decide)⟩,
    ⟨by decide, (lwa_meets_minpack_minimum vec2 vec3 emptyVecI emptyMat 0).2.1 (by decide)⟩,
    ⟨by decide, (lwa_meets_minpack_minimum vec2 vec3 emptyVecI emptyMat 0).2.2 (by decide)⟩⟩

/-- C8: whenever `ei_hybrd` reaches its solver, a negative `nb_of_subdiagonals` (resp.
`nb_of_superdiagonals`), the default `-1` included, has been replaced by `n - 1` and a
non-negative one is passed unchanged, so for `n ≥ 1` both bandwidths handed over are
non-negative; and `ei_hybrd` does reach its solver when `n(n+1)` fits an `int`. -/
theorem hybrd_bandwidth_defaults {α : Type} [Inhabited α]
    (x fvec : VectorX α) (fjac : MatrixX α) (R qtf diag : VectorX α)
    (mode nb_of_subdiagonals nb_of_superdiagonals maxfev : Int)
    (factor xtol epsfcn : α) (nprint : Int) :
    (∀ c, ei_hybrd x fvec fjac R qtf diag mode nb_of_subdiagonals nb_of_superdiagonals
        maxfev factor xtol epsfcn nprint = some c →
      c.ml = (if nb_of_subdiagonals < 0 then x.size - 1 else nb_of_subdiagonals) ∧
      c.mu = (if nb_of_superdiagonals < 0 then x.size - 1 else nb_of_superdiagonals) ∧
      (1 ≤ x.size → 0 ≤ c.ml ∧ 0 ≤ c.mu)) ∧
    (∀ c, ei_hybrd x fvec fjac R qtf diag mode ei_hybrd_default_bandwidth
        ei_hybrd_default_bandwidth maxfev factor xtol epsfcn nprint = some c →
      c.ml = x.size - 1 ∧ c.mu = x.size - 1) ∧
    (x.size * (x.size + 1) < 2147483648 →
      ∃ c, ei_hybrd x fvec fjac R qtf diag mode nb_of_subdiagonals nb_of_superdiagonals
        maxfev factor xtol epsfcn nprint = some c) := by
  have h0 := x.size_nonneg
  have h1 := x.size_lt_two_pow
  have hsub : intSub x.size 1 = x.size - 1 := wrap32_eq_self (by omega) (by omega)
  refine ⟨?_, ?_, ?_⟩
  · intro c h
    obtain ⟨-, -, -, -, -, hml, hmu⟩ := ei_hybrd_some h
    rw [hsub] at hml hmu
    refine ⟨hml, hmu, fun hn => ?_⟩
    rw [hml, hmu]
    constructor <;> split <;> omega
  · intro c h
    obtain ⟨-, -, -, -, -, hml, hmu⟩ := ei_hybrd_some h
    rw [hsub] at hml hmu
    rw [hml, hmu]
    simp [ei_hybrd_default_bandwidth]
  · intro h
    exact ei_hybrd_isSome x fvec fjac R qtf diag mode nb_of_subdiagonals
      nb_of_superdiagonals maxfev factor xtol epsfcn nprint h

/-- C8, at `x` of length 2 with the default bandwidths: `ei_hybrd` reaches its solver and
hands over the bandwidths `(1, 1)`, both non-negative. -/
theorem hybrd_bandwidth_defaults_witness :
    vec2.size * (vec2.size + 1) < 2147483648 ∧ 1 ≤ vec2.size ∧
    ∃ c, ei_hybrd vec2 emptyVec emptyMat emptyVec emptyVec vec2 1 (-1) (-1) 2000 100 0 0 0
        = some c ∧
      c.ml = 1 ∧ c.mu = 1 ∧ 0 ≤ c.ml ∧ 0 ≤ c.mu := by
  have T := hybrd_bandwidth_defaults vec2 emptyVec emptyMat emptyVec emptyVec vec2 1
    (-1) (-1) 2000 100 0 0 0
  obtain ⟨c, hc⟩ := T.2.2 (by decide)
  have h := T.1 c hc
  exact ⟨by decide, by decide, c, hc, h.1.trans (by decide), h.2.1.trans (by decide),
    h.2.2 (by decide)⟩

/-! ## Claims on `initSparse`: stored values and coordinate lists -/

/-- C4: after `initSparse` the dense and the sparse matrix hold the same values: the shape
of `refMat` is unchanged, no coordinate is filled twice, every stored entry lies within the
shape, and for every coordinate `(i, j)` within the shape the sparse matrix holds a stored
entry at `(i, j)` exactly when `refMat(i, j)` is non-zero, and that entry equals
`refMat(i, j)`. -/
theorem initSparse_same_values {α : Type} [LinearOrderedRing α] [ScalarArith α]
    (src : RandomSource α)
    (rnd : RandomState) (density : Double) (refMat : MatrixX α)
    (sparseMat : SparseMatrix α) (flags : Int)
    (zeroCoords nonzeroCoords : Option (List (Nat × Nat))) :
    ((initSparse src rnd density refMat sparseMat flags zeroCoords
        nonzeroCoords).refMat.rows = refMat.rows ∧
      (initSparse src rnd density refMat sparseMat flags zeroCoords
        nonzeroCoords).refMat.cols = refMat.cols) ∧
    ((initSparse src rnd density refMat sparseMat flags zeroCoords
        nonzeroCoords).sparseMat.entries.map entryCoord).Nodup ∧
    (∀ e ∈ (initSparse src rnd density refMat sparseMat flags zeroCoords
        nonzeroCoords).sparseMat.entries, e.1 < refMat.rows ∧ e.2.1 < refMat.cols) ∧
    ∀ i j, i < refMat.rows → j < refMat.cols →
      ((∃ v, (i, j, v) ∈ (initSparse src rnd density refMat sparseMat flags zeroCoords
          nonzeroCoords).sparseMat.entries) ↔
        (initSparse src rnd density refMat sparseMat flags zeroCoords
          nonzeroCoords).refMat.coeff i j ≠ 0) ∧
      (∀ v, (i, j, v) ∈ (initSparse src rnd density refMat sparseMat flags zeroCoords
          nonzeroCoords).sparseMat.entries →
        v = (initSparse src rnd density refMat sparseMat flags zeroCoords
          nonzeroCoords).refMat.coeff i j) := by
  have hE := initSparse_entries src rnd density refMat sparseMat flags zeroCoords
    nonzeroCoords
  have hS := initSparse_shape src rnd density refMat sparseMat flags zeroCoords
    nonzeroCoords
  generalize initSparse src rnd density refMat sparseMat flags zeroCoords nonzeroCoords
    = F at hE hS ⊢
  have hmem : ∀ i j v, (i, j, v) ∈ F.sparseMat.entries ↔
      (i < refMat.rows ∧ j < refMat.cols) ∧ F.refMat.coeff i j ≠ 0 ∧
        v = F.refMat.coeff i j := by
    intro i j v
    rw [hE, List.mem_map]
    constructor
    · rintro ⟨c, hc, hcv⟩
      rw [List.mem_filter, mem_cells, decide_eq_true_eq] at hc
      simp only [Prod.mk.injEq] at hcv
      obtain ⟨rfl, rfl, rfl⟩ := hcv
      exact ⟨hc.1, hc.2, rfl⟩
    · rintro ⟨hij, hne, rfl⟩
      refine ⟨(i, j), ?_, rfl⟩
      rw [List.mem_filter, mem_cells, decide_eq_true_eq]
      exact ⟨hij, hne⟩
  have hcoords : F.sparseMat.entries.map entryCoord
      = (cells refMat.rows refMat.cols).filter
          (fun c => decide (F.refMat.coeff c.1 c.2 ≠ 0)) := by
    rw [hE, List.map_map]
    exact List.map_id _
  have hnd : (F.sparseMat.entries.map entryCoord).Nodup := by
    rw [hcoords]
    exact (cells_nodup _ _).filter _
  refine ⟨?_, hnd, ?_, ?_⟩
  · exact hS
  · rintro ⟨i, j, v⟩ he
    exact ((hmem i j v).1 he).1
  · intro i j hi hj
    refine ⟨⟨?_, ?_⟩, ?_⟩
    · rintro ⟨v, hv⟩
      exact ((hmem i j v).1 hv).2.1
    · intro hne
      exact ⟨_, (hmem i j _).2 ⟨⟨hi, hj⟩, hne, rfl⟩⟩
    · intro v hv
      exact ((hmem i j v).1 hv).2.2


/-- C4, at a 3-by-3 matrix with all three flags set and the coordinate `(1, 1)`. -/
theorem initSparse_same_values_witness :
    (1 < mat33.rows ∧ 1 < mat33.cols) ∧
    ((∃ v, (1, 1, v) ∈ (initSparse srcOnes ⟨0, 0⟩ 1 mat33 ⟨[]⟩ 7 none
          none).sparseMat.entries) ↔
        (initSparse srcOnes ⟨0, 0⟩ 1 mat33 ⟨[]⟩ 7 none none).refMat.coeff 1 1 ≠ 0) ∧
    (∀ v, (1, 1, v) ∈ (initSparse srcOnes ⟨0, 0⟩ 1 mat33 ⟨[]⟩ 7 none
          none).sparseMat.entries →
        v = (initSparse srcOnes ⟨0, 0⟩ 1 mat33 ⟨[]⟩ 7 none none).refMat.coeff 1 1) :=
  ⟨⟨by decide, by decide⟩,
    (initSparse_same_values srcOnes ⟨0, 0⟩ 1 mat33 ⟨[]⟩ 7 none none).2.2.2 1 1
      (by decide) (by decide)⟩

/-- C9: called with both coordinate lists supplied and empty, `initSparse` leaves two
lists that partition the index set of the matrix: each list is free of repetitions and in
column-major order, a coordinate within the shape is in `nonzeroCoords` exactly when
`refMat(i, j)` is non-zero and in `zeroCoords` exactly when it is zero (so in exactly one
of them), the lists hold no coordinate outside the shape, and their lengths sum to
`rows * cols`. -/
theorem initSparse_coords_partition {α : Type} [LinearOrderedRing α] [ScalarArith α]
    (src : RandomSource α) (rnd : RandomState) (density : Double) (refMat : MatrixX α)
    (sparseMat : SparseMatrix α) (flags : Int) :
    ∃ nz z,
      (initSparse src rnd density refMat sparseMat flags (some []) (some [])).nonzeroCoords
        = some nz ∧
      (initSparse src rnd density refMat sparseMat flags (some []) (some [])).zeroCoords
        = some z ∧
      nz.Nodup ∧ z.Nodup ∧ nz.Pairwise colMajorLt ∧ z.Pairwise colMajorLt ∧
      nz.length + z.length = refMat.rows * refMat.cols ∧
      (∀ c, c ∈ nz ∨ c ∈ z → c.1 < refMat.rows ∧ c.2 < refMat.cols) ∧
      ∀ i j, i < refMat.rows → j < refMat.cols →
        ((i, j) ∈ nz ↔ (initSparse src rnd density refMat sparseMat flags (some [])
          (some [])).refMat.coeff i j ≠ 0) ∧
        ((i, j) ∈ z ↔ (initSparse src rnd density refMat sparseMat flags (some [])
          (some [])).refMat.coeff i j = 0) ∧
        ((i, j) ∈ nz ↔ (i, j) ∉ z) := by
  have hN := initSparse_nonzeroCoords src rnd density refMat sparseMat flags (some []) []
  have hZ := initSparse_zeroCoords src rnd density refMat sparseMat flags (some []) []
  generalize initSparse src rnd density refMat sparseMat flags (some []) (some [])
    = F at hN hZ ⊢
  rw [List.nil_append] at hN hZ
  have hlen := @List.length_eq_length_filter_add _ (cells refMat.rows refMat.cols)
    (fun c : Nat × Nat => decide (F.refMat.coeff c.1 c.2 ≠ 0))
  have hfil : (cells refMat.rows refMat.cols).filter
        (fun c => !decide (F.refMat.coeff c.1 c.2 ≠ 0))
      = (cells refMat.rows refMat.cols).filter
        (fun c => decide (F.refMat.coeff c.1 c.2 = 0)) := by
    congr 1
    funext c
    by_cases h : F.refMat.coeff c.1 c.2 = 0 <;> simp [h]
  rw [hfil, length_cells] at hlen
  refine ⟨_, _, hN, hZ, (cells_nodup _ _).filter _, (cells_nodup _ _).filter _,
    (cells_pairwise _ _).sublist (List.filter_sublist _),
    (cells_pairwise _ _).sublist (List.filter_sublist _), hlen.symm, ?_, ?_⟩
  · rintro c (hc | hc) <;> exact mem_cells.1 (List.mem_filter.1 hc).1
  · intro i j hi hj
    have hc : (i, j) ∈ cells refMat.rows refMat.cols := mem_cells.2 ⟨hi, hj⟩
    simp only [List.mem_filter, hc, true_and, decide_eq_true_eq]

/-- C9, at a 3-by-3 matrix with all three flags set and the coordinate `(0, 2)`. -/
theorem initSparse_coords_partition_witness :
    ∃ nz z,
      (initSparse srcOnes ⟨0, 0⟩ 1 mat33 ⟨[]⟩ 7 (some []) (some [])).nonzeroCoords
        = some nz ∧
      (initSparse srcOnes ⟨0, 0⟩ 1 mat33 ⟨[]⟩ 7 (some []) (some [])).zeroCoords = some z ∧
      nz.length + z.length = mat33.rows * mat33.cols ∧
      (0 < mat33.rows ∧ 2 < mat33.cols) ∧
      ((0, 2) ∈ nz ↔ (0, 2) ∉ z) :=
  let ⟨nz, z, h1, h2, _, _, _, _, h3, _, h4⟩ :=
    initSparse_coords_partition srcOnes ⟨0, 0⟩ 1 mat33 ⟨[]⟩ 7
  ⟨nz, z, h1, h2, h3, ⟨by decide, by decide⟩, (h4 0 2 (by decide) (by decide)).2.2⟩

/-- C5: `initSparse` enforces the triangular flags: with `MakeLowerTriangular` every
coefficient above the diagonal is zero, with `MakeUpperTriangular` every coefficient below
the diagonal is zero, with both every off-diagonal coefficient is zero; and the diagonal
is not touched by these flags: a run whose flags differ at most in the two triangular
flags produces the same diagonal. -/
theorem initSparse_triangular {α : Type} [LinearOrderedRing α] [ScalarArith α]
    (src : RandomSource α)
    (rnd : RandomState) (density : Double) (refMat : MatrixX α)
    (sparseMat : SparseMatrix α) (flags : Int)
    (zeroCoords nonzeroCoords : Option (List (Nat × Nat))) :
    (hasFlag flags MakeLowerTriangular →
      ∀ i j, i < refMat.rows → j < refMat.cols → j > i →
        (initSparse src rnd density refMat sparseMat flags zeroCoords
          nonzeroCoords).refMat.coeff i j = 0) ∧
    (hasFlag flags MakeUpperTriangular →
      ∀ i j, i < refMat.rows → j < refMat.cols → j < i →
        (initSparse src rnd density refMat sparseMat flags zeroCoords
          nonzeroCoords).refMat.coeff i j = 0) ∧
    (hasFlag flags MakeLowerTriangular → hasFlag flags MakeUpperTriangular →
      ∀ i j, i < refMat.rows → j < refMat.cols → i ≠ j →
        (initSparse src rnd density refMat sparseMat flags zeroCoords
          nonzeroCoords).refMat.coeff i j = 0) ∧
    (∀ flags2 : Int,
      (hasFlag flags2 ForceNonZeroDiag ↔ hasFlag flags ForceNonZeroDiag) →
      ∀ i, i < refMat.rows → i < refMat.cols →
        (initSparse src rnd density refMat sparseMat flags2 zeroCoords
          nonzeroCoords).refMat.coeff i i
        = (initSparse src rnd density refMat sparseMat flags zeroCoords
          nonzeroCoords).refMat.coeff i i) := by
  have lower : hasFlag flags MakeLowerTriangular →
      ∀ i j, i < refMat.rows → j < refMat.cols → j > i →
        (initSparse src rnd density refMat sparseMat flags zeroCoords
          nonzeroCoords).refMat.coeff i j = 0 := by
    intro hf i j hi hj hij
    obtain ⟨r, hr⟩ := initSparse_value src rnd density refMat sparseMat flags zeroCoords
      nonzeroCoords i j hi hj
    rw [hr]
    exact shapeCoeff_lower _ hf hij
  have upper : hasFlag flags MakeUpperTriangular →
      ∀ i j, i < refMat.rows → j < refMat.cols → j < i →
        (initSparse src rnd density refMat sparseMat flags zeroCoords
          nonzeroCoords).refMat.coeff i j = 0 := by
    intro hf i j hi hj hij
    obtain ⟨r, hr⟩ := initSparse_value src rnd density refMat sparseMat flags zeroCoords
      nonzeroCoords i j hi hj
    rw [hr]
    exact shapeCoeff_upper _ hf hij
  refine ⟨lower, upper, ?_, ?_⟩
  · intro hl hu i j hi hj hij
    rcases Nat.lt_or_gt_of_ne hij with h | h
    · exact lower hl i j hi hj h
    · exact upper hu i j hi hj h
  · intro flags2 h i hi hic
    rw [initSparse_eq, initSparse_eq]
    exact (foldl_diag_congr src density h _ (cells_nodup _ _) _ _ rfl).2 i
      (mem_cells.2 ⟨hi, hic⟩)

/-- C5, at a 3-by-3 matrix with all three flags set: `(0, 2)` and `(2, 0)` are zero, and
the diagonal entry `(1, 1)` is the one of the run with `ForceNonZeroDiag` alone. -/
theorem initSparse_triangular_witness :
    hasFlag 7 MakeLowerTriangular ∧ hasFlag 7 MakeUpperTriangular ∧
    (hasFlag 1 ForceNonZeroDiag ↔ hasFlag 7 ForceNonZeroDiag) ∧
    (initSparse srcOnes ⟨0, 0⟩ 1 mat33 ⟨[]⟩ 7 none none).refMat.coeff 0 2 = 0 ∧
    (initSparse srcOnes ⟨0, 0⟩ 1 mat33 ⟨[]⟩ 7 none none).refMat.coeff 2 0 = 0 ∧
    (initSparse srcOnes ⟨0, 0⟩ 1 mat33 ⟨[]⟩ 1 none none).refMat.coeff 1 1
      = (initSparse srcOnes ⟨0, 0⟩ 1 mat33 ⟨[]⟩ 7 none none).refMat.coeff 1 1 :=
  ⟨by decide, by decide, by decide,
    (initSparse_triangular srcOnes ⟨0, 0⟩ 1 mat33 ⟨[]⟩ 7 none none).1 (by decide) 0 2
      (by decide) (by decide) (by decide),
    (initSparse_triangular srcOnes ⟨0, 0⟩ 1 mat33 ⟨[]⟩ 7 none none).2.1 (by decide) 2 0
      (by decide) (by decide) (by decide),
    (initSparse_triangular srcOnes ⟨0, 0⟩ 1 mat33 ⟨[]⟩ 7 none none).2.2.2 1 (by decide) 1
      (by decide) (by decide)⟩

/-- C10: with `ForceNonZeroDiag` set, for every density and whatever the other flags are,
every diagonal entry `refMat(i, i)` is the value `v * v + 5` with `v = r * 3` that the
code computes in the arithmetic of `Scalar` (rounding or exact) from one of the drawn
scalars `r`, is at least 5 and non-zero, and is a stored entry of the sparse matrix. -/
theorem initSparse_forced_diag {α : Type} [LinearOrderedRing α] [ScalarArith α]
    (src : RandomSource α)
    (rnd : RandomState) (density : Double) (refMat : MatrixX α)
    (sparseMat : SparseMatrix α) (flags : Int)
    (zeroCoords nonzeroCoords : Option (List (Nat × Nat)))
    (hf : hasFlag flags ForceNonZeroDiag) (i : Nat) (hi : i < refMat.rows)
    (hic : i < refMat.cols) :
    (∃ k, (initSparse src rnd density refMat sparseMat flags zeroCoords
        nonzeroCoords).refMat.coeff i i
      = ScalarArith.add (ScalarArith.mul (ScalarArith.mul (src.scalar k) 3)
          (ScalarArith.mul (src.scalar k) 3)) 5) ∧
    5 ≤ (initSparse src rnd density refMat sparseMat flags zeroCoords
        nonzeroCoords).refMat.coeff i i ∧
    (initSparse src rnd density refMat sparseMat flags zeroCoords
        nonzeroCoords).refMat.coeff i i ≠ 0 ∧
    (i, i, (initSparse src rnd density refMat sparseMat flags zeroCoords
        nonzeroCoords).refMat.coeff i i) ∈
      (initSparse src rnd density refMat sparseMat flags zeroCoords
        nonzeroCoords).sparseMat.entries := by
  obtain ⟨r, hr⟩ := initSparse_value src rnd density refMat sparseMat flags zeroCoords
    nonzeroCoords i i hi hic
  obtain ⟨k, hk⟩ := drawCoeff_diag src density i r hf
  rw [coeffValue_diag, hk] at hr
  have h5 : (5 : α) ≤ (initSparse src rnd density refMat sparseMat flags zeroCoords
      nonzeroCoords).refMat.coeff i i := by
    rw [hr]
    exact ScalarArith.five_le_add_five _ (ScalarArith.zero_le_mul_self _)
  have hne : (initSparse src rnd density refMat sparseMat flags zeroCoords
      nonzeroCoords).refMat.coeff i i ≠ 0 := by
    intro h0
    rw [h0] at h5
    exact absurd h5 (not_le.2 (by norm_num))
  refine ⟨⟨k, hr⟩, h5, hne, ?_⟩
  rw [initSparse_entries src rnd density refMat sparseMat flags zeroCoords nonzeroCoords,
    List.mem_map]
  refine ⟨(i, i), ?_, rfl⟩
  rw [List.mem_filter, mem_cells, decide_eq_true_eq]
  exact ⟨⟨hi, hic⟩, hne⟩

/-- C10, at a 3-by-3 matrix with density 0, all three flags set and the entry `(2, 2)`,
in exact arithmetic and in the arithmetic that rounds down to multiples of `1/1024` with
every scalar draw equal to `1/10`. -/
theorem initSparse_forced_diag_witness :
    hasFlag 7 ForceNonZeroDiag ∧ 2 < mat33.rows ∧ 2 < mat33.cols ∧
    5 ≤ (initSparse srcOnes ⟨0, 0⟩ 0 mat33 ⟨[]⟩ 7 none none).refMat.coeff 2 2 ∧
    (2, 2, (initSparse srcOnes ⟨0, 0⟩ 0 mat33 ⟨[]⟩ 7 none none).refMat.coeff 2 2) ∈
      (initSparse srcOnes ⟨0, 0⟩ 0 mat33 ⟨[]⟩ 7 none none).sparseMat.entries ∧
    5 ≤ (@initSparse ℚ _ floorArith srcTenth ⟨0, 0⟩ 0 mat33 ⟨[]⟩ 7 none
      none).refMat.coeff 2 2 ∧
    (2, 2, (@initSparse ℚ _ floorArith srcTenth ⟨0, 0⟩ 0 mat33 ⟨[]⟩ 7 none
        none).refMat.coeff 2 2) ∈
      (@initSparse ℚ _ floorArith srcTenth ⟨0, 0⟩ 0 mat33 ⟨[]⟩ 7 none
        none).sparseMat.entries :=
  ⟨by decide, by decide, by decide,
    (initSparse_forced_diag srcOnes ⟨0, 0⟩ 0 mat33 ⟨[]⟩ 7 none none (by decide) 2
      (by decide) (by decide)).2.1,
    (initSparse_forced_diag srcOnes ⟨0, 0⟩ 0 mat33 ⟨[]⟩ 7 none none (by decide) 2
      (by decide) (by decide)).2.2.2,
    (@initSparse_forced_diag ℚ _ floorArith srcTenth ⟨0, 0⟩ 0 mat33 ⟨[]⟩ 7 none none
      (by decide) 2 (by decide) (by decide)).2.1,
    (@initSparse_forced_diag ℚ _ floorArith srcTenth ⟨0, 0⟩ 0 mat33 ⟨[]⟩ 7 none none
      (by decide) 2 (by decide) (by decide)).2.2.2⟩

theorem srcOnes_scalar_bounded (k : Nat) : |srcOnes.scalar k| ≤ 1 := by
  unfold srcOnes
  simp only
  split <;> norm_num

/-- C6 fails as stated: in the 1-by-7 matrix generated with `ForceNonZeroDiag`, density 1,
the scalar draw 0 for the diagonal and 1 for every other coefficient, the diagonal entry is
5 and the six other entries of the row are 1 (every value computed on the way is a small
integer, so no rounding takes place). -/
theorem initSparse_not_diag_dominant :
    hasFlag ForceNonZeroDiag ForceNonZeroDiag ∧ (∀ k, |srcOnes.scalar k| ≤ 1) ∧
    ¬ (∀ i, i < mat17.rows → i < mat17.cols →
      ((Finset.range mat17.cols).erase i).sum (fun j =>
          |(initSparse srcOnes ⟨0, 0⟩ 1 mat17 ⟨[]⟩ ForceNonZeroDiag none
            none).refMat.coeff i j|)
        ≤ |(initSparse srcOnes ⟨0, 0⟩ 1 mat17 ⟨[]⟩ ForceNonZeroDiag none
            none).refMat.coeff i i|) := by
  refine ⟨by decide, ?_, ?_⟩
  · exact srcOnes_scalar_bounded
  · intro h
    have h0 := h 0 (by decide) (by decide)
    rw [Finset.sum_erase_eq_sub (by decide)] at h0
    simp [initSparse, initSparseCoeff, drawCoeff, shapeCoeff, storeCoeff, List.range_succ,
      mat17, zeroMat, srcOnes, ei_random_unit, ei_random_scalar, hasFlag, MatrixX.set,
      SparseMatrix.fill, SparseMatrix.startFill, SparseMatrix.endFill, ForceNonZeroDiag,
      MakeLowerTriangular, MakeUpperTriangular, Finset.sum_range_succ, exactArith_mul,
      exactArith_add, (by decide : Int.land 1 1 = 1), (by decide : Int.land 1 2 = 0),
      (by decide : Int.land 1 4 = 0)] at h0
    norm_num at h0

/-- C6, amended: with `ForceNonZeroDiag` set and scalar draws of magnitude at most 1,
for every matrix shape every off-diagonal entry of the generated matrix has magnitude at
most 1 and every diagonal entry is at least 5; so in a row `i` that has a diagonal entry
the magnitude of `refMat(i, i)` is at least the sum of the magnitudes of the other entries
of the row whenever the row has at most five non-zero off-diagonal entries, in particular
whenever the matrix has at most six columns. -/
theorem initSparse_diag_dominant_of_few_entries {α : Type} [LinearOrderedRing α]
    [ScalarArith α] (src : RandomSource α) (rnd : RandomState) (density : Double)
    (refMat : MatrixX α) (sparseMat : SparseMatrix α) (flags : Int)
    (zeroCoords nonzeroCoords : Option (List (Nat × Nat)))
    (hf : hasFlag flags ForceNonZeroDiag) (hsrc : ∀ k, |src.scalar k| ≤ 1) :
    (∀ i j, i < refMat.rows → j < refMat.cols → j ≠ i →
      |(initSparse src rnd density refMat sparseMat flags zeroCoords
        nonzeroCoords).refMat.coeff i j| ≤ 1) ∧
    ∀ i, i < refMat.rows → i < refMat.cols →
      5 ≤ (initSparse src rnd density refMat sparseMat flags zeroCoords
          nonzeroCoords).refMat.coeff i i ∧
      ((((Finset.range refMat.cols).erase i).filter (fun j =>
          (initSparse src rnd density refMat sparseMat flags zeroCoords
            nonzeroCoords).refMat.coeff i j ≠ 0)).card ≤ 5 →
        ((Finset.range refMat.cols).erase i).sum (fun j =>
            |(initSparse src rnd density refMat sparseMat flags zeroCoords
              nonzeroCoords).refMat.coeff i j|)
          ≤ |(initSparse src rnd density refMat sparseMat flags zeroCoords
              nonzeroCoords).refMat.coeff i i|) ∧
      (refMat.cols ≤ 6 →
        ((Finset.range refMat.cols).erase i).sum (fun j =>
            |(initSparse src rnd density refMat sparseMat flags zeroCoords
              nonzeroCoords).refMat.coeff i j|)
          ≤ |(initSparse src rnd density refMat sparseMat flags zeroCoords
              nonzeroCoords).refMat.coeff i i|) := by
  have hoff : ∀ i j, i < refMat.rows → j < refMat.cols → j ≠ i →
      |(initSparse src rnd density refMat sparseMat flags zeroCoords
        nonzeroCoords).refMat.coeff i j| ≤ 1 := by
    intro i j hi hj hji
    obtain ⟨r, hr⟩ := initSparse_value src rnd density refMat sparseMat flags zeroCoords
      nonzeroCoords i j hi hj
    rw [hr]
    exact abs_coeffValue_offdiag src density flags r hsrc (Ne.symm hji)
  refine ⟨hoff, ?_⟩
  intro i hi hic
  have hd := forced_diag_ge_five src rnd density refMat sparseMat flags zeroCoords
    nonzeroCoords hf i hi hic
  have hoffi := fun j => hoff i j hi
  generalize (initSparse src rnd density refMat sparseMat flags zeroCoords
    nonzeroCoords).refMat.coeff = f at hd hoffi ⊢
  have hdiag : 5 ≤ |f i i| := le_trans hd (le_abs_self _)
  have hsum : (((Finset.range refMat.cols).erase i).filter (fun j => f i j ≠ 0)).card ≤ 5 →
      ((Finset.range refMat.cols).erase i).sum (fun j => |f i j|) ≤ |f i i| := by
    intro hcard
    have hterm : ∀ j ∈ (Finset.range refMat.cols).erase i,
        |f i j| ≤ if f i j ≠ 0 then (1 : α) else 0 := by
      intro j hj
      rw [Finset.mem_erase, Finset.mem_range] at hj
      split
      · exact hoffi j hj.2 hj.1
      · rename_i h0
        rw [not_not] at h0
        rw [h0, abs_zero]
    have h5 : ((((Finset.range refMat.cols).erase i).filter
        (fun j => f i j ≠ 0)).card : α) ≤ 5 := by
      exact_mod_cast hcard
    calc ((Finset.range refMat.cols).erase i).sum (fun j => |f i j|)
        ≤ ((Finset.range refMat.cols).erase i).sum
            (fun j => if f i j ≠ 0 then (1 : α) else 0) := Finset.sum_le_sum hterm
      _ = ((((Finset.range refMat.cols).erase i).filter
            (fun j => f i j ≠ 0)).card : α) := Finset.sum_boole _ _
      _ ≤ 5 := h5
      _ ≤ |f i i| := hdiag
  refine ⟨hd, hsum, fun hcols => hsum ?_⟩
  calc (((Finset.range refMat.cols).erase i).filter (fun j => f i j ≠ 0)).card
      ≤ ((Finset.range refMat.cols).erase i).card := Finset.card_filter_le _ _
    _ = refMat.cols - 1 := by
        rw [Finset.card_erase_of_mem (Finset.mem_range.2 hic), Finset.card_range]
    _ ≤ 5 := by omega

/-- C6, amended, at a 3-by-3 matrix with `ForceNonZeroDiag` and density 1, row 1, and at
the entry `(2, 0)` of a 3-by-1 matrix, whose row has no diagonal entry. -/
theorem initSparse_diag_dominant_of_few_entries_witness :
    hasFlag ForceNonZeroDiag ForceNonZeroDiag ∧ (∀ k, |srcOnes.scalar k| ≤ 1) ∧
    (1 < mat33.rows ∧ 1 < mat33.cols) ∧ mat33.cols ≤ 6 ∧
    5 ≤ (initSparse srcOnes ⟨0, 0⟩ 1 mat33 ⟨[]⟩ ForceNonZeroDiag none
        none).refMat.coeff 1 1 ∧
    ((Finset.range mat33.cols).erase 1).sum (fun j =>
        |(initSparse srcOnes ⟨0, 0⟩ 1 mat33 ⟨[]⟩ ForceNonZeroDiag none
          none).refMat.coeff 1 j|)
      ≤ |(initSparse srcOnes ⟨0, 0⟩ 1 mat33 ⟨[]⟩ ForceNonZeroDiag none
          none).refMat.coeff 1 1| ∧
    (2 < mat31.rows ∧ 0 < mat31.cols ∧ 0 ≠ 2) ∧
    |(initSparse srcOnes ⟨0, 0⟩ 1 mat31 ⟨[]⟩ ForceNonZeroDiag none
        none).refMat.coeff 2 0| ≤ 1 :=
  ⟨by decide, srcOnes_scalar_bounded, ⟨by decide, by decide⟩, by decide,
    ((initSparse_diag_dominant_of_few_entries srcOnes ⟨0, 0⟩ 1 mat33 ⟨[]⟩ ForceNonZeroDiag
      none none (by decide) srcOnes_scalar_bounded).2 1 (by decide) (by decide)).1,
    ((initSparse_diag_dominant_of_few_entries srcOnes ⟨0, 0⟩ 1 mat33 ⟨[]⟩ ForceNonZeroDiag
      none none (by decide) srcOnes_scalar_bounded).2 1 (by decide) (by decide)).2.2
      (by decide),
    ⟨by decide, by decide, by decide⟩,
    (initSparse_diag_dominant_of_few_entries srcOnes ⟨0, 0⟩ 1 mat31 ⟨[]⟩ ForceNonZeroDiag
      none none (by decide) srcOnes_scalar_bounded).1 2 0 (by decide) (by decide)
      (by decide)⟩

/-- C7: at a 1-by-2 matrix whose generated coefficients are `1` at `(0, 0)` and `0` at
`(0, 1)`, `initSparse` pushes the non-zero coordinate `(0, 0)` on `nonzeroCoords` and the
zero coordinate `(0, 1)` on `zeroCoords`. -/
theorem initSparse_coord_lists_eval :
    (initSparse srcOnes ⟨0, 0⟩ 1 mat12 ⟨[]⟩ 0 (some []) (some [])).refMat.coeff 0 0 = 1 ∧
    (initSparse srcOnes ⟨0, 0⟩ 1 mat12 ⟨[]⟩ 0 (some []) (some [])).refMat.coeff 0 1 = 0 ∧
    (initSparse srcOnes ⟨0, 0⟩ 1 mat12 ⟨[]⟩ 0 (some []) (some [])).nonzeroCoords
      = some [(0, 0)] ∧
    (initSparse srcOnes ⟨0, 0⟩ 1 mat12 ⟨[]⟩ 0 (some []) (some [])).zeroCoords
      = some [(0, 1)] := by
  simp [initSparse, initSparseCoeff, drawCoeff, shapeCoeff, storeCoeff, List.range_succ,
    mat12, zeroMat, srcOnes, ei_random_unit, ei_random_scalar, hasFlag, MatrixX.set,
    SparseMatrix.fill, SparseMatrix.startFill, SparseMatrix.endFill, ForceNonZeroDiag,
    MakeLowerTriangular, MakeUpperTriangular, exactArith_mul, exactArith_add,
    (by decide : Int.land 0 1 = 0), (by decide : Int.land 0 2 = 0),
    (by decide : Int.land 0 4 = 0)]

end Eigen
